import Mathlib

/-!
Verification of the single-table entity/repository data-access layer of the
clkk-mobile-backend repository, against its natural-language specification.

The TypeScript source is shallowly embedded: DynamoDB items are association
lists from attribute names to values, the table is an association list from
(partition key, sort key) pairs to items, and each repository operation is a
pure function over that state (plus, where the operation's behaviour depends
on engine responses, an explicit engine-response argument).  JavaScript
`undefined` is `Option.none`; JavaScript truthiness of optional strings is
modelled explicitly (`""` is falsy).  Strings crossing the base64/JSON codec
boundary are modelled as lists of bytes (their UTF-8 encoding), each < 256.
-/

namespace Clkk

/-! ## Attribute values

`src/layers/entities/nodejs/src/user.entity.ts` stores strings plus three
object-valued attributes (kycDetails, address, metadata).  Address comes from
the GraphQL types layer; metadata is `Record<string, any>`, modelled as a flat
string map. -/

/-- Address, from `src/layers/graphql-types/nodejs/src/index.ts`. -/
structure Address where
  street1 : String
  street2 : Option String
  city : String
  state : String
  postalCode : String
  country : String
deriving DecidableEq, Repr

/-- One entry of `kycDetails.documents` (`user.entity.ts` lines 37-43). -/
structure KycDocument where
  type : String
  status : String
  uploadedAt : String
  verifiedAt : Option String
  url : Option String
deriving DecidableEq, Repr

/-- The `kycDetails` attribute (`user.entity.ts` lines 32-44). -/
structure KycDetails where
  provider : Option String
  verificationId : Option String
  status : String
  verifiedAt : Option String
  documents : Option (List KycDocument)
deriving DecidableEq, Repr

/-- A DynamoDB attribute value as used by the User entity's items. -/
inductive AttrVal where
  | str (s : String)
  | addr (a : Address)
  | kyc (k : KycDetails)
  | meta (m : List (String × String))
deriving DecidableEq, Repr

/-- A stored item: attribute name to value, names unique on all paths built
by the code (JS object literals cannot repeat a key). -/
abbrev Item := List (String × AttrVal)

/-- First-match attribute lookup (JS property access `item[name]`). -/
def lookupAttr : Item → String → Option AttrVal
  | [], _ => none
  | (k, v) :: rest, a => if k = a then some v else lookupAttr rest a

/-! ## Constants layer (`ATTRIBUTES`, `KEY_BUILDERS`)

From the constants layer source (`CONDITION_BUILDERS` / `KEY_BUILDERS` file):
attribute names are string constants; key builders are pure functions that
attach the entity/category tag and, for email and tag, lower-case the value. -/

@[simp] abbrev ATTRIBUTES.PARTITION_KEY : String := "PK"
@[simp] abbrev ATTRIBUTES.SORT_KEY : String := "SK"
@[simp] abbrev ATTRIBUTES.EXTERNAL_ID_KEY : String := "ExternalIdKey"
@[simp] abbrev ATTRIBUTES.EMAIL_KEY : String := "EmailKey"
@[simp] abbrev ATTRIBUTES.CLKK_TAG_KEY : String := "ClkkTagKey"
@[simp] abbrev ATTRIBUTES.ID : String := "id"
@[simp] abbrev ATTRIBUTES.CREATED_AT : String := "createdAt"
@[simp] abbrev ATTRIBUTES.UPDATED_AT : String := "updatedAt"
@[simp] abbrev ATTRIBUTES.CLERK_ID : String := "clerkId"
@[simp] abbrev ATTRIBUTES.EMAIL : String := "email"
@[simp] abbrev ATTRIBUTES.PHONE_NUMBER : String := "phoneNumber"
@[simp] abbrev ATTRIBUTES.FIRST_NAME : String := "firstName"
@[simp] abbrev ATTRIBUTES.LAST_NAME : String := "lastName"
@[simp] abbrev ATTRIBUTES.CLKK_TAG : String := "clkkTag"
@[simp] abbrev ATTRIBUTES.KYC_STATUS : String := "kycStatus"
@[simp] abbrev ATTRIBUTES.KYC_DETAILS : String := "kycDetails"
@[simp] abbrev ATTRIBUTES.PROFILE_IMAGE_URL : String := "profileImageUrl"
@[simp] abbrev ATTRIBUTES.DATE_OF_BIRTH : String := "dateOfBirth"
@[simp] abbrev ATTRIBUTES.ADDRESS : String := "address"
@[simp] abbrev ATTRIBUTES.METADATA : String := "metadata"

/-- JS `String.prototype.toLowerCase`, modelled per character. -/
def jsToLowerCase (s : String) : String := ⟨s.data.map Char.toLower⟩

/-- Primary key of the single-table design: (partition, sort). -/
abbrev Key := String × String

/-- `KEY_BUILDERS.user`: `PK = SK = "USER#" + userId`. -/
def KEY_BUILDERS.user (userId : String) : Key :=
  ("USER#" ++ userId, "USER#" ++ userId)

/-- `KEY_BUILDERS.userByClerkId`: the ExternalIdKey GSI value. -/
def KEY_BUILDERS.userByClerkId (clerkId : String) : String :=
  "CLERK#" ++ clerkId

/-- `KEY_BUILDERS.userByEmail`: the EmailKey GSI value, lower-cased with the
EMAIL category tag. -/
def KEY_BUILDERS.userByEmail (email : String) : String :=
  "EMAIL#" ++ jsToLowerCase email

/-- `KEY_BUILDERS.userByClkkTag`: the ClkkTagKey GSI value, lower-cased with
the TAG category tag. -/
def KEY_BUILDERS.userByClkkTag (clkkTag : String) : String :=
  "TAG#" ++ jsToLowerCase clkkTag

/-! ## The User entity (`user.entity.ts`, class `User extends BaseEntity`)

Fields declared `!:` in TypeScript can still be `undefined` at runtime before
a save stamps them, so `createdAt`/`updatedAt` are optional here; the four
required attributes are plain strings. -/

structure User where
  id : String
  createdAt : Option String
  updatedAt : Option String
  clerkId : String
  email : String
  phoneNumber : Option String
  firstName : Option String
  lastName : Option String
  clkkTag : Option String
  kycStatus : String
  kycDetails : Option KycDetails
  profileImageUrl : Option String
  dateOfBirth : Option String
  address : Option Address
  metadata : Option (List (String × String))
deriving DecidableEq, Repr

/-- JS truthiness of an optional string: absent and `""` are falsy. -/
def strTruthy : Option String → Bool
  | none => false
  | some s => !(s == "")

/-- The conditional insertion `if (this.x) item[k] = this.x` for an optional
string attribute. -/
def optStrEntry (k : String) (v : Option String) : Item :=
  match v with
  | none => []
  | some s => if s == "" then [] else [(k, AttrVal.str s)]

/-- The conditional insertion for an object-valued attribute (JS objects are
always truthy). -/
def optValEntry (k : String) (v : Option AttrVal) : Item :=
  match v with
  | none => []
  | some a => [(k, a)]

/-- `User.getPrimaryKey` (`user.entity.ts` lines 70-72). -/
def User.getPrimaryKey (u : User) : Key :=
  KEY_BUILDERS.user u.id

/-- `User.toItem` (`user.entity.ts` lines 77-105): the four required
attributes, then each optional attribute if truthy, then the GSI key
projections (ExternalIdKey and EmailKey always, ClkkTagKey if the tag is
truthy).  Note it does NOT include `createdAt`/`updatedAt`; `save`/`create`
spread those in separately. -/
def User.toItem (u : User) : Item :=
  [(ATTRIBUTES.ID, AttrVal.str u.id),
   (ATTRIBUTES.CLERK_ID, AttrVal.str u.clerkId),
   (ATTRIBUTES.EMAIL, AttrVal.str u.email),
   (ATTRIBUTES.KYC_STATUS, AttrVal.str u.kycStatus)]
  ++ optStrEntry ATTRIBUTES.PHONE_NUMBER u.phoneNumber
  ++ optStrEntry ATTRIBUTES.FIRST_NAME u.firstName
  ++ optStrEntry ATTRIBUTES.LAST_NAME u.lastName
  ++ optStrEntry ATTRIBUTES.CLKK_TAG u.clkkTag
  ++ optValEntry ATTRIBUTES.KYC_DETAILS (u.kycDetails.map AttrVal.kyc)
  ++ optStrEntry ATTRIBUTES.PROFILE_IMAGE_URL u.profileImageUrl
  ++ optStrEntry ATTRIBUTES.DATE_OF_BIRTH u.dateOfBirth
  ++ optValEntry ATTRIBUTES.ADDRESS (u.address.map AttrVal.addr)
  ++ optValEntry ATTRIBUTES.METADATA (u.metadata.map AttrVal.meta)
  ++ [(ATTRIBUTES.EXTERNAL_ID_KEY, AttrVal.str (KEY_BUILDERS.userByClerkId u.clerkId)),
      (ATTRIBUTES.EMAIL_KEY, AttrVal.str (KEY_BUILDERS.userByEmail u.email))]
  ++ (if strTruthy u.clkkTag then
        [(ATTRIBUTES.CLKK_TAG_KEY,
          AttrVal.str (KEY_BUILDERS.userByClkkTag (u.clkkTag.getD "")))]
      else [])

/-- The attribute record `User.fromItem` returns (`user.entity.ts` lines
110-128): a `Partial<User>` whose every field is the raw item lookup, so any
field can come back absent. -/
structure UserFields where
  id : Option String
  clerkId : Option String
  email : Option String
  phoneNumber : Option String
  firstName : Option String
  lastName : Option String
  clkkTag : Option String
  kycStatus : Option String
  kycDetails : Option KycDetails
  profileImageUrl : Option String
  dateOfBirth : Option String
  address : Option Address
  metadata : Option (List (String × String))
  createdAt : Option String
  updatedAt : Option String
deriving DecidableEq, Repr

/-- String-typed attribute read (`item[name]` on a string attribute). -/
def getS (item : Item) (k : String) : Option String :=
  match lookupAttr item k with
  | some (AttrVal.str s) => some s
  | _ => none

/-- kycDetails-typed attribute read. -/
def getKyc (item : Item) (k : String) : Option KycDetails :=
  match lookupAttr item k with
  | some (AttrVal.kyc d) => some d
  | _ => none

/-- address-typed attribute read. -/
def getAddr (item : Item) (k : String) : Option Address :=
  match lookupAttr item k with
  | some (AttrVal.addr a) => some a
  | _ => none

/-- metadata-typed attribute read. -/
def getMeta (item : Item) (k : String) : Option (List (String × String)) :=
  match lookupAttr item k with
  | some (AttrVal.meta m) => some m
  | _ => none

/-- `User.fromItem` (`user.entity.ts` lines 110-128). -/
def User.fromItem (item : Item) : UserFields :=
  { id := getS item ATTRIBUTES.ID
    clerkId := getS item ATTRIBUTES.CLERK_ID
    email := getS item ATTRIBUTES.EMAIL
    phoneNumber := getS item ATTRIBUTES.PHONE_NUMBER
    firstName := getS item ATTRIBUTES.FIRST_NAME
    lastName := getS item ATTRIBUTES.LAST_NAME
    clkkTag := getS item ATTRIBUTES.CLKK_TAG
    kycStatus := getS item ATTRIBUTES.KYC_STATUS
    kycDetails := getKyc item ATTRIBUTES.KYC_DETAILS
    profileImageUrl := getS item ATTRIBUTES.PROFILE_IMAGE_URL
    dateOfBirth := getS item ATTRIBUTES.DATE_OF_BIRTH
    address := getAddr item ATTRIBUTES.ADDRESS
    metadata := getMeta item ATTRIBUTES.METADATA
    createdAt := getS item ATTRIBUTES.CREATED_AT
    updatedAt := getS item ATTRIBUTES.UPDATED_AT }

/-! ## Validation (`User.validate`, `user.entity.ts` lines 133-160)

The zod schema: `id`/`clerkId` min length 1, `commonSchemas.email`
(`z.string().email()`), optional `commonSchemas.phoneNumber`
(`/^\+?[1-9]\d{1,14}$/`), optional `firstName`/`lastName` length 1..50,
optional `clkkTag` length 3..20, `kycStatus` in the KYC enum.  The zod email
check is modelled from zod's email regular expression
`(?!\.)(?!.*\.\.)([A-Za-z0-9_'+.-]*)[A-Za-z0-9_+-]@([A-Za-z0-9][A-Za-z0-9-]*\.)+[A-Za-z]{2,}`,
anchored at both ends.  `validate()` throws on failure; here it is the
boolean `validateOk`. -/

/-- Character class of the zod email local part (39 is the apostrophe). -/
def emailLocalChar (c : Char) : Bool :=
  c.isAlpha || c.isDigit || c == '_' || c.toNat == 39 || c == '+' || c == '-' || c == '.'

/-- Character class required of the last local-part character (no dot, no
apostrophe). -/
def emailLocalLastChar (c : Char) : Bool :=
  c.isAlpha || c.isDigit || c == '_' || c == '+' || c == '-'

/-- The `(?!.*\.\.)` lookahead: no two consecutive dots anywhere. -/
def noDoubleDot : List Char → Bool
  | c1 :: c2 :: rest => !(c1 == '.' && c2 == '.') && noDoubleDot (c2 :: rest)
  | _ => true

/-- Split a character list on a separator character. Always returns at least
one (possibly empty) group. -/
def splitOnChar (sep : Char) : List Char → List (List Char)
  | [] => [[]]
  | d :: rest =>
    match splitOnChar sep rest with
    | [] => [[]]
    | grp :: grps => if d == sep then [] :: grp :: grps else (d :: grp) :: grps

/-- One domain label: `[A-Za-z0-9][A-Za-z0-9-]*`. -/
def domainLabelOk (l : List Char) : Bool :=
  match l with
  | [] => false
  | c :: rest =>
    (c.isAlpha || c.isDigit) && rest.all (fun d => d.isAlpha || d.isDigit || d == '-')

/-- The local part: nonempty, no leading dot, all characters in the local
class, last character in the restricted class. -/
def emailLocalOk (l : List Char) : Bool :=
  match l with
  | [] => false
  | c :: _ =>
    !(c == '.') && l.all emailLocalChar &&
      (match l.getLast? with
       | some lastc => emailLocalLastChar lastc
       | none => false)

/-- The domain: `(label\.)+[A-Za-z]{2,}`. -/
def emailDomainOk (d : List Char) : Bool :=
  let parts := splitOnChar '.' d
  (match parts.getLast? with
   | some tld => 2 ≤ tld.length && tld.all Char.isAlpha
   | none => false)
  && 1 ≤ parts.dropLast.length && parts.dropLast.all domainLabelOk

/-- Model of zod's `.email()` check (`commonSchemas.email`). -/
def zodEmail (s : String) : Bool :=
  match splitOnChar '@' s.data with
  | [l, d] => emailLocalOk l && noDoubleDot s.data && emailDomainOk d
  | _ => false

/-- Model of `commonSchemas.phoneNumber`, the regex `\+?[1-9]\d{1,14}`
anchored at both ends. -/
def phoneRegexOk (s : String) : Bool :=
  let cs := match s.data with
    | c :: rest => if c == '+' then rest else c :: rest
    | [] => []
  match cs with
  | [] => false
  | c :: rest =>
    (Char.toNat c ≥ 49 && Char.toNat c ≤ 57) && rest.all Char.isDigit &&
      1 ≤ rest.length && rest.length ≤ 14

/-- `z.string().min(lo).max(hi).optional()`. -/
def optLenOk (v : Option String) (lo hi : Nat) : Bool :=
  match v with
  | none => true
  | some s => lo ≤ s.length && s.length ≤ hi

/-- `Object.values(KYC_STATUS)` from the constants layer. -/
def KYC_STATUS.values : List String :=
  ["NOT_STARTED", "PENDING", "IN_REVIEW", "APPROVED", "REJECTED", "EXPIRED"]

/-- `User.validate` as a boolean: true exactly when the zod parse succeeds
(the source throws `User validation failed: ...` otherwise). -/
def User.validateOk (u : User) : Bool :=
  1 ≤ u.id.length && 1 ≤ u.clerkId.length && zodEmail u.email
  && (match u.phoneNumber with
      | none => true
      | some p => phoneRegexOk p)
  && optLenOk u.firstName 1 50 && optLenOk u.lastName 1 50
  && optLenOk u.clkkTag 3 20
  && KYC_STATUS.values.contains u.kycStatus

/-- The attribute view of an entity: what each attribute of `u` holds.  Used
to compare a `fromItem` result with the entity it was serialized from. -/
def User.fields (u : User) : UserFields :=
  { id := some u.id
    clerkId := some u.clerkId
    email := some u.email
    phoneNumber := u.phoneNumber
    firstName := u.firstName
    lastName := u.lastName
    clkkTag := u.clkkTag
    kycStatus := some u.kycStatus
    kycDetails := u.kycDetails
    profileImageUrl := u.profileImageUrl
    dateOfBirth := u.dateOfBirth
    address := u.address
    metadata := u.metadata
    createdAt := u.createdAt
    updatedAt := u.updatedAt }

/-! ## Lookup lemmas for the serialization round trip -/

/-- Left-biased combination of two lookups, for splitting a lookup over an
append. -/
def optOr (a b : Option AttrVal) : Option AttrVal :=
  match a with
  | some v => some v
  | none => b

@[simp] theorem optOr_some (v : AttrVal) (b : Option AttrVal) :
    optOr (some v) b = some v := rfl

@[simp] theorem optOr_none (b : Option AttrVal) : optOr none b = b := rfl

@[simp] theorem lookupAttr_nil (a : String) : lookupAttr [] a = none := rfl

@[simp] theorem lookupAttr_cons (k : String) (v : AttrVal) (rest : Item) (a : String) :
    lookupAttr ((k, v) :: rest) a = if k = a then some v else lookupAttr rest a := rfl

@[simp] theorem lookupAttr_append (l1 l2 : Item) (a : String) :
    lookupAttr (l1 ++ l2) a = optOr (lookupAttr l1 a) (lookupAttr l2 a) := by
  induction l1 with
  | nil => simp
  | cons kv rest ih =>
    obtain ⟨k, v⟩ := kv
    by_cases h : k = a <;> simp [h, ih]

@[simp] theorem optStrEntry_lookup_ne (k : String) (v : Option String) (a : String)
    (h : ¬ k = a) : lookupAttr (optStrEntry k v) a = none := by
  cases v with
  | none => rfl
  | some s =>
    simp only [optStrEntry]
    split <;> simp [h]

@[simp] theorem optValEntry_lookup_ne (k : String) (v : Option AttrVal) (a : String)
    (h : ¬ k = a) : lookupAttr (optValEntry k v) a = none := by
  cases v <;> simp [optValEntry, h]

theorem optStrEntry_lookup_self (k : String) (v : Option String) (h : v ≠ some "") :
    lookupAttr (optStrEntry k v) k = v.map AttrVal.str := by
  cases v with
  | none => rfl
  | some s =>
    have hs : ¬ s = "" := fun he => h (by simp [he])
    simp [optStrEntry, hs]

theorem optValEntry_lookup_self (k : String) (v : Option AttrVal) :
    lookupAttr (optValEntry k v) k = v := by
  cases v <;> simp [optValEntry]

@[simp] theorem lookupAttr_ite (c : Prop) [Decidable c] (l1 l2 : Item) (a : String) :
    lookupAttr (if c then l1 else l2) a
      = if c then lookupAttr l1 a else lookupAttr l2 a := by
  split <;> rfl


/-! ### Field-by-field round-trip lemmas for `User.fromItem ∘ User.toItem` -/

theorem getS_toItem_id (u : User) : getS u.toItem ATTRIBUTES.ID = some u.id := by
  simp [User.toItem, getS]

theorem getS_toItem_clerkId (u : User) :
    getS u.toItem ATTRIBUTES.CLERK_ID = some u.clerkId := by
  simp [User.toItem, getS]

theorem getS_toItem_email (u : User) :
    getS u.toItem ATTRIBUTES.EMAIL = some u.email := by
  simp [User.toItem, getS]

theorem getS_toItem_kycStatus (u : User) :
    getS u.toItem ATTRIBUTES.KYC_STATUS = some u.kycStatus := by
  simp [User.toItem, getS]

theorem getS_toItem_phone (u : User) (h : u.phoneNumber ≠ some "") :
    getS u.toItem ATTRIBUTES.PHONE_NUMBER = u.phoneNumber := by
  simp [User.toItem, getS, optStrEntry_lookup_self _ _ h]
  cases u.phoneNumber <;> simp

theorem getS_toItem_firstName (u : User) (h : u.firstName ≠ some "") :
    getS u.toItem ATTRIBUTES.FIRST_NAME = u.firstName := by
  simp [User.toItem, getS, optStrEntry_lookup_self _ _ h]
  cases u.firstName <;> simp

theorem getS_toItem_lastName (u : User) (h : u.lastName ≠ some "") :
    getS u.toItem ATTRIBUTES.LAST_NAME = u.lastName := by
  simp [User.toItem, getS, optStrEntry_lookup_self _ _ h]
  cases u.lastName <;> simp

theorem getS_toItem_clkkTag (u : User) (h : u.clkkTag ≠ some "") :
    getS u.toItem ATTRIBUTES.CLKK_TAG = u.clkkTag := by
  simp [User.toItem, getS, optStrEntry_lookup_self _ _ h]
  cases u.clkkTag <;> simp

theorem getS_toItem_profileImageUrl (u : User) (h : u.profileImageUrl ≠ some "") :
    getS u.toItem ATTRIBUTES.PROFILE_IMAGE_URL = u.profileImageUrl := by
  simp [User.toItem, getS, optStrEntry_lookup_self _ _ h]
  cases u.profileImageUrl <;> simp

theorem getS_toItem_dateOfBirth (u : User) (h : u.dateOfBirth ≠ some "") :
    getS u.toItem ATTRIBUTES.DATE_OF_BIRTH = u.dateOfBirth := by
  simp [User.toItem, getS, optStrEntry_lookup_self _ _ h]
  cases u.dateOfBirth <;> simp

theorem getKyc_toItem (u : User) :
    getKyc u.toItem ATTRIBUTES.KYC_DETAILS = u.kycDetails := by
  simp [User.toItem, getKyc, optValEntry_lookup_self]
  cases u.kycDetails <;> simp

theorem getAddr_toItem (u : User) :
    getAddr u.toItem ATTRIBUTES.ADDRESS = u.address := by
  simp [User.toItem, getAddr, optValEntry_lookup_self]
  cases u.address <;> simp

theorem getMeta_toItem (u : User) :
    getMeta u.toItem ATTRIBUTES.METADATA = u.metadata := by
  simp [User.toItem, getMeta, optValEntry_lookup_self]
  cases u.metadata <;> simp

theorem getS_toItem_createdAt (u : User) :
    getS u.toItem ATTRIBUTES.CREATED_AT = none := by
  simp [User.toItem, getS]

theorem getS_toItem_updatedAt (u : User) :
    getS u.toItem ATTRIBUTES.UPDATED_AT = none := by
  simp [User.toItem, getS]

/-! ### Claim C3 -/

/-- A valid user carrying timestamps, used to exhibit that `toItem` omits
them. -/
def sampleUserC3 : User :=
  { id := "user_1"
    createdAt := some "2024-01-01T00:00:00.000Z"
    updatedAt := some "2024-01-02T00:00:00.000Z"
    clerkId := "clerk_1"
    email := "Alice@Example.com"
    phoneNumber := some "+15551234567"
    firstName := some "Alice"
    lastName := some "Smith"
    clkkTag := some "alicesmith0001"
    kycStatus := "NOT_STARTED"
    kycDetails := none
    profileImageUrl := none
    dateOfBirth := none
    address := none
    metadata := none }

/-- C3, counterexample: `toItem` does not write `createdAt`/`updatedAt` (the
`save`/`create` paths spread them into the stored item separately), so
`fromItem (toItem e)` returns them absent and is NOT equal to `e` in all
attributes for a valid `e` that carries timestamps. -/
theorem fromItem_toItem_drops_timestamps :
    sampleUserC3.validateOk = true ∧
    sampleUserC3.createdAt = some "2024-01-01T00:00:00.000Z" ∧
    (User.fromItem sampleUserC3.toItem).createdAt = none ∧
    (User.fromItem sampleUserC3.toItem).updatedAt = none ∧
    User.fromItem sampleUserC3.toItem ≠ sampleUserC3.fields := by
  refine ⟨by decide, rfl, by decide, by decide, by decide⟩

/-- C3 (amended): for every entity whose present optional string attributes
are truthy (non-empty — `toItem` drops falsy values), `fromItem (toItem e)`
reconstructs every attribute of `e` except `createdAt` and `updatedAt`, which
come back absent because `toItem` does not include them. -/
theorem fromItem_toItem_roundtrip (u : User)
    (hp : u.phoneNumber ≠ some "") (hf : u.firstName ≠ some "")
    (hl : u.lastName ≠ some "") (ht : u.clkkTag ≠ some "")
    (hpi : u.profileImageUrl ≠ some "") (hd : u.dateOfBirth ≠ some "") :
    User.fromItem u.toItem
      = { u.fields with createdAt := none, updatedAt := none } := by
  simp only [User.fromItem, User.fields, UserFields.mk.injEq]
  exact ⟨getS_toItem_id u, getS_toItem_clerkId u, getS_toItem_email u,
    getS_toItem_phone u hp, getS_toItem_firstName u hf, getS_toItem_lastName u hl,
    getS_toItem_clkkTag u ht, getS_toItem_kycStatus u, getKyc_toItem u,
    getS_toItem_profileImageUrl u hpi, getS_toItem_dateOfBirth u hd,
    getAddr_toItem u, getMeta_toItem u, getS_toItem_createdAt u,
    getS_toItem_updatedAt u⟩

/-- Witness for the amended C3 at a concrete entity with all optional
attributes absent (the case the claim singles out). -/
theorem fromItem_toItem_roundtrip_witness :
    ((none : Option String) ≠ some "" ∧
      (User.fromItem
          { id := "user_2", createdAt := none, updatedAt := none,
            clerkId := "clerk_2", email := "b@example.com", phoneNumber := none,
            firstName := none, lastName := none, clkkTag := none,
            kycStatus := "PENDING", kycDetails := none, profileImageUrl := none,
            dateOfBirth := none, address := none,
            metadata := none : User}.toItem)
        = { User.fields
              { id := "user_2", createdAt := none, updatedAt := none,
                clerkId := "clerk_2", email := "b@example.com", phoneNumber := none,
                firstName := none, lastName := none, clkkTag := none,
                kycStatus := "PENDING", kycDetails := none, profileImageUrl := none,
                dateOfBirth := none, address := none,
                metadata := none : User} with
            createdAt := none, updatedAt := none }) :=
  ⟨by decide,
    fromItem_toItem_roundtrip _ (by decide) (by decide) (by decide) (by decide)
      (by decide) (by decide)⟩

/-! ## Store state and the engine's conditional put

The table is modelled as an association list from (PK, SK) to items.  A put
replaces the row at its key; `attribute_not_exists(PK)` — the condition
`CONDITION_BUILDERS.attributeNotExists(ATTRIBUTES.PARTITION_KEY)` that
`BaseEntity.create` attaches — fails exactly when a row already exists at the
put's key, since every stored row carries its PK key attribute. -/

/-- Engine-level failures a DynamoDB call can report. -/
inductive EngineError where
  | conditionalCheckFailed
  | transientTimeout
  | throttling
  | connectivity
deriving DecidableEq, Repr

/-- Errors `BaseEntity` operations surface to callers: the zod validation
throw, the `"... already exists"` error `create` throws after a
`ConditionalCheckFailedException`, and any other engine error rethrown. -/
inductive EntityError where
  | validation (msg : String)
  | alreadyExists (entityType : String) (id : String)
  | engine (e : EngineError)
deriving DecidableEq, Repr

/-- The single-table state. -/
abbrev Store := List (Key × Item)

/-- Read the row at a primary key (`GetCommand`). -/
def Store.getItem : Store → Key → Option Item
  | [], _ => none
  | (k, it) :: rest, key => if k = key then some it else Store.getItem rest key

/-- Unconditional put (`PutCommand` without a condition): replaces the row. -/
def Store.putItem : Store → Key → Item → Store
  | [], key, it => [(key, it)]
  | (k, old) :: rest, key, it =>
    if k = key then (key, it) :: rest
    else (k, old) :: Store.putItem rest key it

/-- `PutCommand` with `ConditionExpression: attribute_not_exists(#attr)` on
the partition key: rejected with `ConditionalCheckFailedException` when a row
exists at the item's primary key. -/
def Store.conditionalPutNotExists (st : Store) (key : Key) (it : Item) :
    Except EngineError Store :=
  match st.getItem key with
  | some _ => Except.error EngineError.conditionalCheckFailed
  | none => Except.ok (st.putItem key it)

theorem Store.getItem_putItem_self (st : Store) (k : Key) (it : Item) :
    (st.putItem k it).getItem k = some it := by
  induction st with
  | nil => simp [Store.putItem, Store.getItem]
  | cons kv rest ih =>
    obtain ⟨k0, it0⟩ := kv
    by_cases h : k0 = k <;> simp [Store.putItem, Store.getItem, h, ih]

theorem Store.getItem_putItem_ne (st : Store) (k k1 : Key) (it : Item)
    (h : k1 ≠ k) : (st.putItem k it).getItem k1 = st.getItem k1 := by
  have h2 : ¬ k = k1 := fun hh => h hh.symm
  induction st with
  | nil => simp [Store.putItem, Store.getItem, h2]
  | cons kv rest ih =>
    obtain ⟨k0, it0⟩ := kv
    by_cases h0 : k0 = k
    · subst h0
      simp [Store.putItem, Store.getItem, h2]
    · simp [Store.putItem, Store.getItem, h0, ih]

/-! ## `BaseEntity.create` / `save` item construction and `create` -/

/-- Timestamp stamping `create` performs on the instance:
`createdAt = updatedAt = now`. -/
def User.stamp (u : User) (now : String) : User :=
  { u with createdAt := some now, updatedAt := some now }

/-- The item `create` writes:
`{ ...getPrimaryKey(), ...toItem(), createdAt: now, updatedAt: now }`. -/
def User.createItem (u : User) (now : String) : Item :=
  [(ATTRIBUTES.PARTITION_KEY, AttrVal.str (KEY_BUILDERS.user u.id).1),
   (ATTRIBUTES.SORT_KEY, AttrVal.str (KEY_BUILDERS.user u.id).2)]
  ++ u.toItem
  ++ [(ATTRIBUTES.CREATED_AT, AttrVal.str now),
      (ATTRIBUTES.UPDATED_AT, AttrVal.str now)]

/-- `BaseEntity.create` (entities layer, lines 119-176) for a User: validate
(throwing before any I/O on failure), stamp both timestamps, then a
conditional put; a `ConditionalCheckFailedException` is translated into the
`"User with id ... already exists"` error, any other failure is rethrown. -/
def User.create (u : User) (now : String) (st : Store) :
    Except EntityError (Store × User) :=
  if u.validateOk then
    match Store.conditionalPutNotExists st u.getPrimaryKey (u.createItem now) with
    | Except.error EngineError.conditionalCheckFailed =>
        Except.error (EntityError.alreadyExists "User" u.id)
    | Except.error e => Except.error (EntityError.engine e)
    | Except.ok st1 => Except.ok (st1, u.stamp now)
  else
    Except.error (EntityError.validation "User validation failed")

/-- `User.getById` via `BaseEntity.getByKey`: read the row at
`KEY_BUILDERS.user(id)` and deserialize it with `fromItem` (absent row is the
`null` result, not an error). -/
def User.getById (st : Store) (userId : String) : Option UserFields :=
  (st.getItem (KEY_BUILDERS.user userId)).map User.fromItem

/-! ### Claim C1 -/

/-- C1: for valid entities with the same id, `create` then `create` fails the
second call with the conflict-kind error (`attribute_not_exists(PK)` fails and
the `ConditionalCheckFailedException` is translated to the "already exists"
error), and a get at that primary key afterwards returns the first entity's
row unchanged. -/
theorem create_then_create_conflicts (u v : User) (n1 n2 : String) (st : Store)
    (hu : u.validateOk = true) (hv : v.validateOk = true)
    (hid : v.id = u.id)
    (h0 : st.getItem (KEY_BUILDERS.user u.id) = none) :
    ∃ st1, User.create u n1 st = Except.ok (st1, u.stamp n1) ∧
      User.create v n2 st1 = Except.error (EntityError.alreadyExists "User" v.id) ∧
      st1.getItem (KEY_BUILDERS.user u.id) = some (u.createItem n1) ∧
      User.getById st1 u.id = some (User.fromItem (u.createItem n1)) := by
  refine ⟨st.putItem (KEY_BUILDERS.user u.id) (u.createItem n1), ?_, ?_, ?_, ?_⟩
  · simp [User.create, hu, Store.conditionalPutNotExists, User.getPrimaryKey, h0]
  · simp [User.create, hv, Store.conditionalPutNotExists, User.getPrimaryKey, hid,
      Store.getItem_putItem_self]
  · exact Store.getItem_putItem_self ..
  · simp [User.getById, Store.getItem_putItem_self]

/-- A small valid user for concrete instantiations: only the required
attributes are set. -/
def mkPlainUser (userId clerkId email : String) : User :=
  { id := userId, createdAt := none, updatedAt := none, clerkId := clerkId,
    email := email, phoneNumber := none, firstName := none, lastName := none,
    clkkTag := none, kycStatus := "NOT_STARTED", kycDetails := none,
    profileImageUrl := none, dateOfBirth := none, address := none,
    metadata := none }

/-- Witness for C1: two concrete valid users sharing the id `user_9`, started
from the empty table. -/
theorem create_then_create_conflicts_witness :
    ((mkPlainUser "user_9" "c9" "a@b.co").validateOk = true ∧
     (mkPlainUser "user_9" "c10" "z@b.co").validateOk = true ∧
     (mkPlainUser "user_9" "c10" "z@b.co").id = (mkPlainUser "user_9" "c9" "a@b.co").id ∧
     Store.getItem [] (KEY_BUILDERS.user (mkPlainUser "user_9" "c9" "a@b.co").id) = none) ∧
    (∃ st1, User.create (mkPlainUser "user_9" "c9" "a@b.co") "t1" []
        = Except.ok (st1, (mkPlainUser "user_9" "c9" "a@b.co").stamp "t1") ∧
      User.create (mkPlainUser "user_9" "c10" "z@b.co") "t2" st1
        = Except.error (EntityError.alreadyExists "User" (mkPlainUser "user_9" "c10" "z@b.co").id) ∧
      st1.getItem (KEY_BUILDERS.user (mkPlainUser "user_9" "c9" "a@b.co").id)
        = some ((mkPlainUser "user_9" "c9" "a@b.co").createItem "t1") ∧
      User.getById st1 (mkPlainUser "user_9" "c9" "a@b.co").id
        = some (User.fromItem ((mkPlainUser "user_9" "c9" "a@b.co").createItem "t1"))) :=
  ⟨⟨by decide, by decide, rfl, rfl⟩,
    create_then_create_conflicts _ _ "t1" "t2" [] (by decide) (by decide) rfl rfl⟩

/-! ## `UPDATE_BUILDERS.set` and `BaseEntity.update`

`UPDATE_BUILDERS.set` (constants layer) walks `Object.entries(updates)` in
order, emitting a `#attrI = :valI` assignment only for entries whose value is
defined, then always appends one more assignment for `updatedAt` with a fresh
timestamp.  The textual expression binds each `#attrI` to the attribute name
and each `:valI` to the value; the definition below returns the
placeholder-resolved assignment list (name, value), in the same order. -/

/-- The resolved `SET` assignment list built by `UPDATE_BUILDERS.set`:
`undefined`-valued entries are skipped, and `updatedAt = now` is always
appended last. -/
def UPDATE_BUILDERS.set (updates : List (String × Option AttrVal)) (now : String) :
    List (String × AttrVal) :=
  (updates.filterMap fun kv => kv.2.map fun v => (kv.1, v))
    ++ [(ATTRIBUTES.UPDATED_AT, AttrVal.str now)]

/-- One `SET` assignment applied to an item: replace the attribute or append
it. -/
def Item.setAttr : Item → String → AttrVal → Item
  | [], k, v => [(k, v)]
  | (k0, v0) :: rest, k, v =>
    if k0 = k then (k, v) :: rest
    else (k0, v0) :: Item.setAttr rest k v

/-- Apply a resolved `SET` assignment list left to right. -/
def applySet (item : Item) (sets : List (String × AttrVal)) : Item :=
  sets.foldl (fun it kv => it.setAttr kv.1 kv.2) item

/-- `BaseEntity.update` (entities layer, lines 181-221): an `UpdateCommand`
with the `UPDATE_BUILDERS.set` expression at the entity's primary key.  No
validation and no condition; the engine applies the assignments to the row at
the key, creating it (with only its key attributes) when absent. -/
def BaseEntity.update (st : Store) (key : Key)
    (updates : List (String × Option AttrVal)) (now : String) : Store :=
  let old := match st.getItem key with
    | some it => it
    | none => [(ATTRIBUTES.PARTITION_KEY, AttrVal.str key.1),
               (ATTRIBUTES.SORT_KEY, AttrVal.str key.2)]
  st.putItem key (applySet old (UPDATE_BUILDERS.set updates now))

theorem Item.lookupAttr_setAttr_self (it : Item) (k : String) (v : AttrVal) :
    lookupAttr (it.setAttr k v) k = some v := by
  induction it with
  | nil => simp [Item.setAttr]
  | cons kv rest ih =>
    obtain ⟨k0, v0⟩ := kv
    by_cases h : k0 = k <;> simp [Item.setAttr, h, ih]

theorem Item.lookupAttr_setAttr_ne (it : Item) (k : String) (v : AttrVal)
    (a : String) (h : ¬ k = a) :
    lookupAttr (it.setAttr k v) a = lookupAttr it a := by
  induction it with
  | nil => simp [Item.setAttr, h]
  | cons kv rest ih =>
    obtain ⟨k0, v0⟩ := kv
    by_cases h0 : k0 = k
    · subst h0
      simp [Item.setAttr, h]
    · simp [Item.setAttr, h0, ih]

theorem applySet_append (it : Item) (s1 s2 : List (String × AttrVal)) :
    applySet it (s1 ++ s2) = applySet (applySet it s1) s2 := by
  simp [applySet, List.foldl_append]

theorem applySet_cons (it : Item) (k : String) (v : AttrVal)
    (rest : List (String × AttrVal)) :
    applySet it ((k, v) :: rest) = applySet (it.setAttr k v) rest := rfl

theorem lookupAttr_applySet_notin (sets : List (String × AttrVal)) (it : Item)
    (a : String) (h : a ∉ sets.map Prod.fst) :
    lookupAttr (applySet it sets) a = lookupAttr it a := by
  induction sets generalizing it with
  | nil => rfl
  | cons kv rest ih =>
    obtain ⟨k, v⟩ := kv
    have h1 : ¬ a = k ∧ a ∉ rest.map Prod.fst := by
      constructor
      · intro hh
        exact h (by simp [hh])
      · intro hh
        exact h (by simp [hh])
    rw [applySet_cons, ih _ h1.2,
      Item.lookupAttr_setAttr_ne _ _ _ _ (fun hh => h1.1 hh.symm)]

/-- Keys of the defined-entry assignments are keys of `updates`. -/
theorem mem_setKeys_sub (updates : List (String × Option AttrVal)) (a : String)
    (h : a ∈ (updates.filterMap fun kv => kv.2.map fun v => (kv.1, v)).map Prod.fst) :
    a ∈ updates.map Prod.fst := by
  simp only [List.mem_map, List.mem_filterMap] at h ⊢
  obtain ⟨p, ⟨⟨k0, v0⟩, hmem, hmap⟩, hfst⟩ := h
  cases v0 with
  | none => simp at hmap
  | some v =>
    simp only [Option.map_some] at hmap
    have hp : (k0, v) = p := Option.some.inj hmap
    refine ⟨(k0, some v), hmem, ?_⟩
    rw [← hp] at hfst
    exact hfst

/-- Under unique update keys, an `undefined`-valued key contributes no
assignment. -/
theorem none_key_not_in_setKeys (updates : List (String × Option AttrVal))
    (a : String) (hnd : (updates.map Prod.fst).Nodup) (ha : (a, none) ∈ updates) :
    a ∉ (updates.filterMap fun kv => kv.2.map fun v => (kv.1, v)).map Prod.fst := by
  induction updates with
  | nil => simp at ha
  | cons kv rest ih =>
    obtain ⟨k, v0⟩ := kv
    simp only [List.map_cons, List.nodup_cons] at hnd
    rcases List.mem_cons.mp ha with heq | hmem
    · have hak : a = k := congrArg Prod.fst heq
      have hv0 : v0 = (none : Option AttrVal) := (congrArg Prod.snd heq).symm
      subst hak
      subst hv0
      intro hcontra
      simp only [List.filterMap_cons, Option.map_none] at hcontra
      exact hnd.1 (mem_setKeys_sub rest a hcontra)
    · have hafst : a ∈ rest.map Prod.fst := List.mem_map.mpr ⟨(a, none), hmem, rfl⟩
      have hak : ¬ a = k := fun hh => hnd.1 (hh ▸ hafst)
      cases v0 with
      | none =>
        simpa [List.filterMap_cons] using ih hnd.2 hmem
      | some v =>
        simp only [List.filterMap_cons, Option.map_some, List.map_cons]
        intro hcontra
        rcases List.mem_cons.mp hcontra with h1 | h2
        · exact hak h1
        · exact ih hnd.2 hmem h2

/-- The `updatedAt` assignment appended by `UPDATE_BUILDERS.set` is always
applied last, so the stored `updatedAt` is rewritten to the fresh
timestamp. -/
theorem lookupAttr_applySet_set_updatedAt (it : Item)
    (updates : List (String × Option AttrVal)) (now : String) :
    lookupAttr (applySet it (UPDATE_BUILDERS.set updates now)) ATTRIBUTES.UPDATED_AT
      = some (AttrVal.str now) := by
  rw [UPDATE_BUILDERS.set, applySet_append]
  simpa [applySet] using
    Item.lookupAttr_setAttr_self
      (applySet it (updates.filterMap fun kv => kv.2.map fun v => (kv.1, v)))
      ATTRIBUTES.UPDATED_AT (AttrVal.str now)

/-! ### Claim C10 -/

/-- C10: in `update(updates)`, every attribute supplied as `undefined` is
omitted from the generated `SET` assignments so its stored value is
unchanged; `updatedAt` is always the final appended assignment and is
rewritten; and stored attributes not named in `updates` are unchanged.
(The update keys are distinct — they come from a JS object — and do not
include `updatedAt` itself, which the engine would reject as overlapping
document paths.) -/
theorem update_set_semantics (st : Store) (key : Key)
    (updates : List (String × Option AttrVal)) (now : String) (it : Item)
    (hit : st.getItem key = some it)
    (hnd : (updates.map Prod.fst).Nodup)
    (hup : ATTRIBUTES.UPDATED_AT ∉ updates.map Prod.fst) :
    (BaseEntity.update st key updates now).getItem key
        = some (applySet it (UPDATE_BUILDERS.set updates now)) ∧
    (UPDATE_BUILDERS.set updates now).getLast?
        = some (ATTRIBUTES.UPDATED_AT, AttrVal.str now) ∧
    lookupAttr (applySet it (UPDATE_BUILDERS.set updates now)) ATTRIBUTES.UPDATED_AT
        = some (AttrVal.str now) ∧
    (∀ a, (a, none) ∈ updates →
      a ∉ (UPDATE_BUILDERS.set updates now).map Prod.fst ∧
      lookupAttr (applySet it (UPDATE_BUILDERS.set updates now)) a = lookupAttr it a) ∧
    (∀ a, a ∉ updates.map Prod.fst → a ≠ ATTRIBUTES.UPDATED_AT →
      lookupAttr (applySet it (UPDATE_BUILDERS.set updates now)) a = lookupAttr it a) := by
  refine ⟨?_, ?_, lookupAttr_applySet_set_updatedAt it updates now, ?_, ?_⟩
  · simp [BaseEntity.update, hit, Store.getItem_putItem_self]
  · simp [UPDATE_BUILDERS.set]
  · intro a ha
    have hmem : a ∈ updates.map Prod.fst := List.mem_map.mpr ⟨(a, none), ha, rfl⟩
    have hau : ¬ a = ATTRIBUTES.UPDATED_AT := fun hh => hup (hh ▸ hmem)
    have hnotin : a ∉ (UPDATE_BUILDERS.set updates now).map Prod.fst := by
      simp only [UPDATE_BUILDERS.set, List.map_append, List.mem_append, List.map_cons]
      rintro (h1 | h2)
      · exact none_key_not_in_setKeys updates a hnd ha h1
      · simp at h2
        exact hau h2
    exact ⟨hnotin, lookupAttr_applySet_notin _ _ _ hnotin⟩
  · intro a ha hau
    have hnotin : a ∉ (UPDATE_BUILDERS.set updates now).map Prod.fst := by
      simp only [UPDATE_BUILDERS.set, List.map_append, List.mem_append, List.map_cons]
      rintro (h1 | h2)
      · exact ha (mem_setKeys_sub updates a h1)
      · simp at h2
        exact hau h2
    exact lookupAttr_applySet_notin _ _ _ hnotin

/-- A one-row store for concrete update scenarios. -/
def updateDemoItem : Item :=
  [(ATTRIBUTES.PARTITION_KEY, AttrVal.str "USER#u7"),
   (ATTRIBUTES.SORT_KEY, AttrVal.str "USER#u7"),
   (ATTRIBUTES.FIRST_NAME, AttrVal.str "Old"),
   (ATTRIBUTES.PHONE_NUMBER, AttrVal.str "+15550000000"),
   (ATTRIBUTES.UPDATED_AT, AttrVal.str "t0")]

/-- Witness for C10: update `firstName` to a value and `phoneNumber` to
`undefined` on a one-row store. -/
theorem update_set_semantics_witness :
    (Store.getItem [(("USER#u7", "USER#u7"), updateDemoItem)] ("USER#u7", "USER#u7")
        = some updateDemoItem ∧
     ([(ATTRIBUTES.FIRST_NAME, some (AttrVal.str "New")),
       (ATTRIBUTES.PHONE_NUMBER, (none : Option AttrVal))].map Prod.fst).Nodup ∧
     ATTRIBUTES.UPDATED_AT ∉ [(ATTRIBUTES.FIRST_NAME, some (AttrVal.str "New")),
       (ATTRIBUTES.PHONE_NUMBER, (none : Option AttrVal))].map Prod.fst) ∧
    ((BaseEntity.update [(("USER#u7", "USER#u7"), updateDemoItem)] ("USER#u7", "USER#u7")
        [(ATTRIBUTES.FIRST_NAME, some (AttrVal.str "New")),
         (ATTRIBUTES.PHONE_NUMBER, none)] "t1").getItem ("USER#u7", "USER#u7")
        = some (applySet updateDemoItem
            (UPDATE_BUILDERS.set
              [(ATTRIBUTES.FIRST_NAME, some (AttrVal.str "New")),
               (ATTRIBUTES.PHONE_NUMBER, none)] "t1"))) :=
  ⟨⟨rfl, by decide, by decide⟩,
    (update_set_semantics [(("USER#u7", "USER#u7"), updateDemoItem)]
      ("USER#u7", "USER#u7")
      [(ATTRIBUTES.FIRST_NAME, some (AttrVal.str "New")),
       (ATTRIBUTES.PHONE_NUMBER, none)] "t1" updateDemoItem rfl
      (by decide) (by decide)).1⟩

/-! ### Claim C2 -/

/-- An invalid user (malformed email) holding a stored first name. -/
def invalidUserC2 : User :=
  { mkPlainUser "user_4" "c4" "not-an-email" with firstName := some "Old" }

/-- The store already holding the invalid user's row. -/
def storeC2 : Store :=
  [(invalidUserC2.getPrimaryKey, invalidUserC2.createItem "t0")]

/-- C2, counterexample: `BaseEntity.update` never calls `validate()`.  For an
entity that fails validation, `create` aborts with the validation error
before any I/O — but `update` issues the write anyway: the stored `firstName`
changes from `Old` to `New` with no validation error, contradicting the claim
that every update validates first and performs no I/O on failure. -/
theorem update_skips_validation :
    invalidUserC2.validateOk = false ∧
    User.create invalidUserC2 "t1" []
      = Except.error (EntityError.validation "User validation failed") ∧
    ((BaseEntity.update storeC2 invalidUserC2.getPrimaryKey
        [(ATTRIBUTES.FIRST_NAME, some (AttrVal.str "New"))] "t1").getItem
        invalidUserC2.getPrimaryKey).map (fun it => getS it ATTRIBUTES.FIRST_NAME)
      = some (some "New") ∧
    (storeC2.getItem invalidUserC2.getPrimaryKey).map
        (fun it => getS it ATTRIBUTES.FIRST_NAME)
      = some (some "Old") := by
  refine ⟨by decide, rfl, by decide, by decide⟩

/-- C2 (amended): `create` (like `save`) runs `validate()` first and aborts
with the validation error without performing the write when it fails;
`update` performs no validation at all — whatever the entity's state, it
issues the engine write and the row at the key ends up present with
`updatedAt` rewritten. -/
theorem create_validates_update_does_not (u : User) (now : String) (st : Store)
    (hv : u.validateOk = false) :
    User.create u now st
      = Except.error (EntityError.validation "User validation failed") ∧
    ∀ key updates now2, ∃ it,
      (BaseEntity.update st key updates now2).getItem key = some it ∧
      lookupAttr it ATTRIBUTES.UPDATED_AT = some (AttrVal.str now2) := by
  constructor
  · simp [User.create, hv]
  · intro key updates now2
    cases hget : st.getItem key with
    | none =>
      refine ⟨applySet [(ATTRIBUTES.PARTITION_KEY, AttrVal.str key.1),
          (ATTRIBUTES.SORT_KEY, AttrVal.str key.2)] (UPDATE_BUILDERS.set updates now2),
        ?_, lookupAttr_applySet_set_updatedAt _ updates now2⟩
      simp [BaseEntity.update, hget, Store.getItem_putItem_self]
    | some it0 =>
      refine ⟨applySet it0 (UPDATE_BUILDERS.set updates now2),
        ?_, lookupAttr_applySet_set_updatedAt _ updates now2⟩
      simp [BaseEntity.update, hget, Store.getItem_putItem_self]

/-- Witness for the amended C2 at the concrete invalid user. -/
theorem create_validates_update_does_not_witness :
    (invalidUserC2.validateOk = false) ∧
    (User.create invalidUserC2 "t2" storeC2
        = Except.error (EntityError.validation "User validation failed") ∧
      ∀ key updates now2, ∃ it,
        (BaseEntity.update storeC2 key updates now2).getItem key = some it ∧
        lookupAttr it ATTRIBUTES.UPDATED_AT = some (AttrVal.str now2)) :=
  ⟨by decide, create_validates_update_does_not invalidUserC2 "t2" storeC2 (by decide)⟩

/-! ## `BaseRepository.chunkArray` and the batch operations

`chunkArray` (repositories layer, lines 261-267) slices the input into
consecutive pieces of at most `size` elements (`array.slice(i, i + size)`
for `i = 0, size, ...`).  The source only ever calls it with 100
(`batchGet`) and 25 (`batchWrite`); with size 0 the JS loop would not
advance, so that case is mapped to `[]` here and never reached.  The loop is
written with an explicit iteration bound so that it is structurally
recursive: a bound of `l.length` iterations is always enough, since every
iteration with `size ≥ 1` consumes at least one element. -/

def chunkArrayF {α : Type} : Nat → List α → Nat → List (List α)
  | _, [], _ => []
  | _, _ :: _, 0 => []
  | 0, _ :: _, _+1 => []
  | f+1, a :: rest, n+1 => (a :: rest.take n) :: chunkArrayF f (rest.drop n) (n+1)

/-- `BaseRepository.chunkArray`. -/
def chunkArray {α : Type} (l : List α) (size : Nat) : List (List α) :=
  chunkArrayF l.length l size

theorem chunkArrayF_flatten {α : Type} : ∀ (f : Nat) (l : List α) (n : Nat),
    l.length ≤ f → (chunkArrayF f l (n+1)).flatten = l
  | _, [], _, _ => by simp [chunkArrayF]
  | 0, a :: rest, _, hf => by simp at hf
  | f+1, a :: rest, n, hf => by
    have hdrop : (rest.drop n).length ≤ f := by
      simp only [List.length_cons] at hf
      simp [List.length_drop]
      omega
    rw [chunkArrayF]
    simp only [List.flatten_cons]
    rw [chunkArrayF_flatten f (rest.drop n) n hdrop]
    simp [List.take_append_drop]

/-- Concatenating the chunks in order reproduces the input. -/
theorem chunkArray_flatten {α : Type} (l : List α) (n : Nat) :
    (chunkArray l (n+1)).flatten = l :=
  chunkArrayF_flatten l.length l n (Nat.le_refl _)

theorem chunkArrayF_mem_length {α : Type} : ∀ (f : Nat) (l : List α) (n : Nat)
    (c : List α), c ∈ chunkArrayF f l (n+1) → c.length ≤ n+1
  | _, [], _, c => by simp [chunkArrayF]
  | 0, a :: rest, _, c => by simp [chunkArrayF]
  | f+1, a :: rest, n, c => by
    rw [chunkArrayF]
    intro hc
    rcases List.mem_cons.mp hc with h1 | h2
    · subst h1
      simp
    · exact chunkArrayF_mem_length f (rest.drop n) n c h2

/-- Every chunk respects the size bound. -/
theorem chunkArray_mem_length {α : Type} (l : List α) (n : Nat) (c : List α)
    (hc : c ∈ chunkArray l (n+1)) : c.length ≤ n+1 :=
  chunkArrayF_mem_length l.length l n c hc

/-- The chunk-size profile determined by the input length (same iteration
bound device). -/
def chunkSizesF : Nat → Nat → Nat → List Nat
  | _, 0, _ => []
  | _, _+1, 0 => []
  | 0, _+1, _+1 => []
  | f+1, m+1, n+1 => min (m+1) (n+1) :: chunkSizesF f (m+1 - (n+1)) (n+1)

/-- Chunk sizes of an input of a given length. -/
def chunkSizes (len size : Nat) : List Nat := chunkSizesF len len size

theorem chunkArrayF_map_length {α : Type} : ∀ (f : Nat) (l : List α) (n : Nat),
    l.length ≤ f →
    (chunkArrayF f l (n+1)).map List.length = chunkSizesF f l.length (n+1)
  | _, [], _, _ => by simp [chunkArrayF, chunkSizesF]
  | 0, a :: rest, _, hf => by simp at hf
  | f+1, a :: rest, n, hf => by
    have hdrop : (rest.drop n).length ≤ f := by
      simp only [List.length_cons] at hf
      simp [List.length_drop]
      omega
    rw [chunkArrayF]
    simp only [List.map_cons]
    rw [chunkArrayF_map_length f (rest.drop n) n hdrop]
    rw [show (a :: rest).length = rest.length + 1 from rfl, chunkSizesF]
    congr 1
    · simp [List.length_take]
      omega
    · congr 1
      simp [List.length_drop]

/-- The chunk sizes depend only on the input length. -/
theorem chunkArray_map_length {α : Type} (l : List α) (n : Nat) :
    (chunkArray l (n+1)).map List.length = chunkSizes l.length (n+1) :=
  chunkArrayF_map_length l.length l n (Nat.le_refl _)

/-! ## `BaseRepository.batchWrite` (repositories layer, lines 184-231) -/

/-- The item one `batchWrite` put request carries:
`{ ...getPrimaryKey(), ...toItem(), createdAt: entity.createdAt || now,
updatedAt: now }`. -/
def User.batchWriteItem (u : User) (now : String) : Item :=
  [(ATTRIBUTES.PARTITION_KEY, AttrVal.str (KEY_BUILDERS.user u.id).1),
   (ATTRIBUTES.SORT_KEY, AttrVal.str (KEY_BUILDERS.user u.id).2)]
  ++ u.toItem
  ++ [(ATTRIBUTES.CREATED_AT,
        AttrVal.str (match u.createdAt with
          | some s => if s == "" then now else s
          | none => now)),
      (ATTRIBUTES.UPDATED_AT, AttrVal.str now)]

/-- `BaseRepository.batchWrite`: chunk the entities into pieces of at most
25, and for each chunk issue one `BatchWriteCommand` whose put requests the
engine applies in order (unprocessed items are only logged — the engine here
accepts every put, as in the claim's scenario).  Returns the resulting store
and the list of chunk requests issued. -/
def BaseRepository.batchWrite (entities : List User) (now : String) (st : Store) :
    Store × List (List User) :=
  let chunks := chunkArray entities 25
  (chunks.foldl
     (fun s c =>
       c.foldl (fun s2 e => s2.putItem e.getPrimaryKey (e.batchWriteItem now)) s)
     st,
   chunks)

/-- Folding the puts of keys not equal to `k` leaves the row at `k` alone. -/
theorem getItem_foldl_put_notin (now : String) :
    ∀ (l : List User) (st : Store) (k : Key),
      k ∉ l.map User.getPrimaryKey →
      (l.foldl (fun s e => s.putItem e.getPrimaryKey (e.batchWriteItem now)) st).getItem k
        = st.getItem k
  | [], _, _, _ => rfl
  | x :: rest, st, k, h => by
    have h1 : ¬ k = x.getPrimaryKey ∧ k ∉ rest.map User.getPrimaryKey := by
      constructor
      · intro hh
        exact h (by simp [hh])
      · intro hh
        exact h (by simp [hh])
    simp only [List.foldl_cons]
    rw [getItem_foldl_put_notin now rest _ k h1.2,
      Store.getItem_putItem_ne _ _ _ _ h1.1]

/-- After folding the puts of a key-distinct entity list, each entity's row
holds exactly its put item. -/
theorem getItem_foldl_put (now : String) :
    ∀ (l : List User) (st : Store),
      (l.map User.getPrimaryKey).Nodup →
      ∀ e ∈ l,
        (l.foldl (fun s x => s.putItem x.getPrimaryKey (x.batchWriteItem now)) st).getItem
            e.getPrimaryKey
          = some (e.batchWriteItem now)
  | [], _, _, e, he => absurd he (List.not_mem_nil e)
  | x :: rest, st, hnd, e, he => by
    simp only [List.map_cons, List.nodup_cons] at hnd
    simp only [List.foldl_cons]
    rcases List.mem_cons.mp he with h1 | h2
    · subst h1
      rw [getItem_foldl_put_notin now rest _ _ hnd.1,
        Store.getItem_putItem_self]
    · exact getItem_foldl_put now rest _ hnd.2 e h2

/-! ### Claim C9 -/

/-- C9: `batchWrite` of 57 key-distinct entities with the configured chunk
limit of 25 issues exactly 3 chunk requests of sizes 25, 25 and 7;
concatenating the chunks in order reproduces the input list (so each entity
appears in exactly one chunk); and afterwards every entity's row is
retrievable by a get at its primary key. -/
theorem batchWrite_chunking (entities : List User) (now : String) (st : Store)
    (h57 : entities.length = 57)
    (hnd : (entities.map User.getPrimaryKey).Nodup) :
    (BaseRepository.batchWrite entities now st).2.length = 3 ∧
    (BaseRepository.batchWrite entities now st).2.map List.length = [25, 25, 7] ∧
    (BaseRepository.batchWrite entities now st).2.flatten = entities ∧
    ∀ e ∈ entities,
      (BaseRepository.batchWrite entities now st).1.getItem e.getPrimaryKey
        = some (e.batchWriteItem now) := by
  have hsizes : (chunkArray entities 25).map List.length = [25, 25, 7] := by
    rw [chunkArray_map_length entities 24, h57]
    decide
  have hlen : (chunkArray entities 25).length = 3 := by
    have := congrArg List.length hsizes
    simpa using this
  have hjoin : (chunkArray entities 25).flatten = entities :=
    chunkArray_flatten entities 24
  refine ⟨hlen, hsizes, hjoin, ?_⟩
  intro e he
  show (List.foldl _ st (chunkArray entities 25)).getItem e.getPrimaryKey = _
  rw [← List.foldl_flatten, hjoin]
  exact getItem_foldl_put now entities st hnd e he

/-- 57 concrete users with distinct ids. -/
def usersC9 : List User :=
  (List.range 57).map (fun i => mkPlainUser ("uC9_" ++ toString i) "c" "a@b.co")

/-- Witness for C9 at the 57 concrete users, from the empty table. -/
theorem batchWrite_chunking_witness :
    (usersC9.length = 57 ∧ (usersC9.map User.getPrimaryKey).Nodup) ∧
    ((BaseRepository.batchWrite usersC9 "t1" []).2.length = 3 ∧
     (BaseRepository.batchWrite usersC9 "t1" []).2.map List.length = [25, 25, 7] ∧
     (BaseRepository.batchWrite usersC9 "t1" []).2.flatten = usersC9 ∧
     ∀ e ∈ usersC9,
       (BaseRepository.batchWrite usersC9 "t1" []).1.getItem e.getPrimaryKey
         = some (e.batchWriteItem "t1")) :=
  ⟨⟨by decide, by decide⟩,
    batchWrite_chunking usersC9 "t1" [] (by decide) (by decide)⟩

/-! ## `BaseRepository.batchGet` (repositories layer, lines 131-179)

The loop chunks the key list into pieces of at most 100, issues one
`BatchGetCommand` per chunk, appends `result.Responses[table]` to the
accumulator, and — when `result.UnprocessedKeys[table]` is non-empty — only
logs a warning.  There is no retry of unprocessed keys anywhere in the loop.
The engine is modelled as a script of responses consumed one per request, so
a response can report unprocessed keys exactly as in the claim's scenario. -/

/-- One engine reply to a `BatchGetCommand`. -/
structure BatchGetResponse where
  responses : List Item
  unprocessedKeys : List Key
deriving DecidableEq, Repr

/-- The chunk loop: one scripted engine response consumed per chunk request.
Returns the accumulated items and the number of requests issued. -/
def batchGetLoop : List BatchGetResponse → List (List Key) → List Item × Nat
  | _, [] => ([], 0)
  | [], _ :: _ => ([], 0)
  | r :: srest, _chunk :: rest =>
    let acc := batchGetLoop srest rest
    (r.responses ++ acc.1, acc.2 + 1)

/-- `BaseRepository.batchGet`: chunk into at most 100 keys per request and
run the loop. -/
def BaseRepository.batchGet (script : List BatchGetResponse) (keys : List Key) :
    List Item × Nat :=
  batchGetLoop script (chunkArray keys 100)

/-- The loop issues exactly one request per chunk and returns exactly the
concatenation of the scripted responses — nothing is ever retried. -/
theorem batchGetLoop_spec : ∀ (chunks : List (List Key)) (script : List BatchGetResponse),
    chunks.length ≤ script.length →
    batchGetLoop script chunks
      = (((script.take chunks.length).map BatchGetResponse.responses).flatten,
         chunks.length)
  | [], script, _ => by cases script <;> rfl
  | c :: rest, [], h => by simp at h
  | c :: rest, r :: srest, h => by
    simp only [List.length_cons] at h
    rw [batchGetLoop]
    rw [batchGetLoop_spec rest srest (by omega)]
    simp [List.take_succ_cons]

/-! ### Claim C4 -/

/-- The 120 distinct keys of the claim's scenario. -/
def keysC4 : List Key :=
  (List.range 120).map (fun i => ("USER#k" ++ toString i, "USER#k" ++ toString i))

/-- A minimal stored item for a key. -/
def itemFor (k : Key) : Item :=
  [(ATTRIBUTES.PARTITION_KEY, AttrVal.str k.1),
   (ATTRIBUTES.SORT_KEY, AttrVal.str k.2)]

/-- The engine script of the claim's scenario: the first (100-key) request
returns 97 items and reports 3 keys unprocessed; the second (20-key) request
returns all 20; a retry of the 3 unprocessed keys would have returned all 3
— but the code never issues it. -/
def scriptC4 : List BatchGetResponse :=
  [{ responses := (keysC4.take 97).map itemFor,
     unprocessedKeys := (keysC4.drop 97).take 3 },
   { responses := ((keysC4.drop 100).take 20).map itemFor, unprocessedKeys := [] },
   { responses := ((keysC4.drop 97).take 3).map itemFor, unprocessedKeys := [] }]

/-- C4, counterexample: in the scenario of the claim — 120 keys, 3 reported
unprocessed on the first request, a retry that would succeed — `batchGet`
issues only the 2 chunk requests (no retry ever happens) and returns 117
items, not 120. -/
theorem batchGet_does_not_retry :
    keysC4.length = 120 ∧
    (scriptC4.head?.map (fun r => r.unprocessedKeys.length)) = some 3 ∧
    (BaseRepository.batchGet scriptC4 keysC4).2 = 2 ∧
    (BaseRepository.batchGet scriptC4 keysC4).1.length = 117 := by
  refine ⟨by decide, by decide, by decide, by decide⟩

/-- C4 (amended): `batchGet` accepts an arbitrary-length key list, partitions
it into chunks of at most 100 (whose concatenation is the key list), and
issues exactly one engine request per chunk; unprocessed keys reported by
the engine are only logged, never retried, so the result is exactly the
concatenation of the per-request responses and items behind unprocessed keys
are missing from it. -/
theorem batchGet_chunks_once (script : List BatchGetResponse) (keys : List Key)
    (h : (chunkArray keys 100).length ≤ script.length) :
    (BaseRepository.batchGet script keys).2 = (chunkArray keys 100).length ∧
    (BaseRepository.batchGet script keys).1
      = ((script.take (chunkArray keys 100).length).map
          BatchGetResponse.responses).flatten ∧
    (∀ c ∈ chunkArray keys 100, c.length ≤ 100) ∧
    (chunkArray keys 100).flatten = keys := by
  have hspec := batchGetLoop_spec (chunkArray keys 100) script h
  refine ⟨?_, ?_, ?_, chunkArray_flatten keys 99⟩
  · rw [BaseRepository.batchGet, hspec]
  · rw [BaseRepository.batchGet, hspec]
  · intro c hc
    exact chunkArray_mem_length keys 99 c hc

/-- Witness for the amended C4 at the concrete 120-key scenario. -/
theorem batchGet_chunks_once_witness :
    ((chunkArray keysC4 100).length ≤ scriptC4.length) ∧
    ((BaseRepository.batchGet scriptC4 keysC4).2 = (chunkArray keysC4 100).length ∧
     (BaseRepository.batchGet scriptC4 keysC4).1
       = ((scriptC4.take (chunkArray keysC4 100).length).map
           BatchGetResponse.responses).flatten ∧
     (∀ c ∈ chunkArray keysC4 100, c.length ≤ 100) ∧
     (chunkArray keysC4 100).flatten = keysC4) :=
  ⟨by decide, batchGet_chunks_once scriptC4 keysC4 (by decide)⟩

/-! ## Engine-error propagation of the single-item operations

`BaseEntity.getByKey` logs and rethrows any engine failure; `BaseEntity.exists`
(entities layer, lines 331-345) wraps its `GetCommand` — a key-only
projection on the partition key — in a try/catch whose catch arm logs and
`return false`.  Each operation is modelled as a function of the engine's
reply to its one `GetCommand`. -/

/-- `BaseEntity.getByKey`: absent row is the `null` result; an engine error
is rethrown to the caller. -/
def BaseEntity.getByKey (engineReply : Except EngineError (Option Item)) :
    Except EngineError (Option UserFields) :=
  match engineReply with
  | Except.error e => Except.error e
  | Except.ok none => Except.ok none
  | Except.ok (some it) => Except.ok (some (User.fromItem it))

/-- `BaseEntity.exists`: `!!result.Item`, with a catch-all that returns
`false` on any failure. -/
def BaseEntity.exists (engineReply : Except EngineError (Option Item)) :
    Except EngineError Bool :=
  match engineReply with
  | Except.ok reply => Except.ok reply.isSome
  | Except.error _ => Except.ok false

/-! ### Claim C8 -/

/-- C8, counterexample: a transient engine failure (a timeout) inside
`exists` is NOT propagated — the catch arm converts it into the boolean
result `false`, indistinguishable from a genuinely absent row. -/
theorem exists_swallows_engine_errors :
    BaseEntity.exists (Except.error EngineError.transientTimeout) = Except.ok false ∧
    BaseEntity.exists (Except.error EngineError.throttling) = Except.ok false ∧
    BaseEntity.exists (Except.error EngineError.connectivity) = Except.ok false := by
  refine ⟨rfl, rfl, rfl⟩

/-- C8 (amended): single-item reads through `getByKey` propagate every engine
error to the caller, but `exists` catches every engine failure and converts
it into the boolean result `false` (its projection probe still transfers only
the partition key, not the full row). -/
theorem getByKey_propagates_exists_swallows :
    (∀ e : EngineError, BaseEntity.getByKey (Except.error e) = Except.error e) ∧
    (∀ e : EngineError, BaseEntity.exists (Except.error e) = Except.ok false) ∧
    (∀ reply : Option Item, BaseEntity.exists (Except.ok reply) = Except.ok reply.isSome) := by
  refine ⟨fun e => rfl, fun e => rfl, fun reply => rfl⟩

/-! ## The pagination codec, part 1: base64

`createNextToken` wraps `JSON.stringify` in Node's base64
(`Buffer.from(json).toString('base64')`); `parsePaginationParams` reverses it
(`Buffer.from(token, 'base64').toString()` then `JSON.parse`).  Bytes are
naturals < 256.  Node's base64 decoder skips characters outside the alphabet
and stops consuming data at padding; the model filters to the alphabet after
truncating at the first `=`. -/
def b64Alphabet : List Char :=
  "ABCDEFGHIJKLMNOPQRSTUVWXYZabcdefghijklmnopqrstuvwxyz0123456789+/".data

def sextetChar (n : Nat) : Char := b64Alphabet.getD n 'A'

def charSextet (c : Char) : Option Nat := b64Alphabet.findIdx? (fun d => d == c)

theorem charSextet_sextetChar : ∀ n < 64, charSextet (sextetChar n) = some n := by decide

theorem sextetChar_beq_eq_false : ∀ n < 64, (sextetChar n == '=') = false := by decide



def base64Encode : List Nat → List Char
  | [] => []
  | [a] => [sextetChar (a / 4), sextetChar (a % 4 * 16), '=', '=']
  | [a, b] => [sextetChar (a / 4), sextetChar (a % 4 * 16 + b / 16),
               sextetChar (b % 16 * 4), '=']
  | a :: b :: c :: rest =>
    sextetChar (a / 4) :: sextetChar (a % 4 * 16 + b / 16) ::
      sextetChar (b % 16 * 4 + c / 64) :: sextetChar (c % 64) :: base64Encode rest

def sextetsToBytes : List Nat → List Nat
  | s1 :: s2 :: s3 :: s4 :: rest =>
    (s1 * 4 + s2 / 16) :: (s2 % 16 * 16 + s3 / 4) :: (s3 % 4 * 64 + s4) ::
      sextetsToBytes rest
  | [s1, s2] => [s1 * 4 + s2 / 16]
  | [s1, s2, s3] => [s1 * 4 + s2 / 16, s2 % 16 * 16 + s3 / 4]
  | _ => []

def base64Decode (s : List Char) : List Nat :=
  sextetsToBytes ((s.takeWhile (fun c => !(c == '='))).filterMap charSextet)

theorem base64Decode_cons4 (s1 s2 s3 s4 : Nat) (cs : List Char)
    (h1 : s1 < 64) (h2 : s2 < 64) (h3 : s3 < 64) (h4 : s4 < 64) :
    base64Decode (sextetChar s1 :: sextetChar s2 :: sextetChar s3 :: sextetChar s4 :: cs)
      = (s1 * 4 + s2 / 16) :: (s2 % 16 * 16 + s3 / 4) :: (s3 % 4 * 64 + s4) ::
          base64Decode cs := by
  simp only [base64Decode, List.takeWhile_cons, sextetChar_beq_eq_false _ h1,
    sextetChar_beq_eq_false _ h2, sextetChar_beq_eq_false _ h3,
    sextetChar_beq_eq_false _ h4, Bool.not_false, if_true, List.filterMap_cons,
    charSextet_sextetChar _ h1, charSextet_sextetChar _ h2,
    charSextet_sextetChar _ h3, charSextet_sextetChar _ h4]
  rw [sextetsToBytes]

theorem base64Decode_pad2 (s1 s2 : Nat) (h1 : s1 < 64) (h2 : s2 < 64) :
    base64Decode [sextetChar s1, sextetChar s2, '=', '='] = [s1 * 4 + s2 / 16] := by
  simp only [base64Decode, List.takeWhile_cons, sextetChar_beq_eq_false _ h1,
    sextetChar_beq_eq_false _ h2, Bool.not_false, if_true, beq_self_eq_true,
    Bool.not_true, if_false, List.filterMap_cons, charSextet_sextetChar _ h1,
    charSextet_sextetChar _ h2]
  rfl

theorem base64Decode_pad1 (s1 s2 s3 : Nat) (h1 : s1 < 64) (h2 : s2 < 64) (h3 : s3 < 64) :
    base64Decode [sextetChar s1, sextetChar s2, sextetChar s3, '=']
      = [s1 * 4 + s2 / 16, s2 % 16 * 16 + s3 / 4] := by
  simp only [base64Decode, List.takeWhile_cons, sextetChar_beq_eq_false _ h1,
    sextetChar_beq_eq_false _ h2, sextetChar_beq_eq_false _ h3, Bool.not_false,
    if_true, beq_self_eq_true, Bool.not_true, if_false, List.filterMap_cons,
    charSextet_sextetChar _ h1, charSextet_sextetChar _ h2,
    charSextet_sextetChar _ h3]
  rfl

theorem base64_roundtrip : ∀ (bs : List Nat), (∀ b ∈ bs, b < 256) →
    base64Decode (base64Encode bs) = bs
  | [], _ => rfl
  | [a], h => by
    have ha : a < 256 := h a (by simp)
    rw [base64Encode, base64Decode_pad2 _ _ (by omega) (by omega)]
    congr 1
    omega
  | [a, b], h => by
    have ha : a < 256 := h a (by simp)
    have hb : b < 256 := h b (by simp)
    rw [base64Encode, base64Decode_pad1 _ _ _ (by omega) (by omega) (by omega)]
    congr 1
    · omega
    · congr 1
      omega
  | a :: b :: c :: d :: rest, h => by
    have ha : a < 256 := h a (by simp)
    have hb : b < 256 := h b (by simp)
    have hc : c < 256 := h c (by simp)
    have ih := base64_roundtrip (d :: rest) (fun x hx => h x (by simp at hx ⊢; tauto))
    rw [base64Encode, base64Decode_cons4 _ _ _ _ _ (by omega) (by omega) (by omega) (by omega), ih]
    congr 1
    · omega
    · congr 1
      · omega
      · congr 1
        omega
  | [a, b, c], h => by
    have ha : a < 256 := h a (by simp)
    have hb : b < 256 := h b (by simp)
    have hc : c < 256 := h c (by simp)
    rw [base64Encode, base64Decode_cons4 _ _ _ _ _ (by omega) (by omega) (by omega) (by omega)]
    show _ = [a, b, c]
    congr 1
    · omega
    · congr 1
      · omega
      · congr 1
        omega

abbrev ByteStr := List Nat

abbrev Marker := List (ByteStr × ByteStr)

def hexDigitByte (n : Nat) : Nat := if n < 10 then 48 + n else 87 + n

def escapeByte (b : Nat) : List Nat :=
  if b = 34 then [92, 34]
  else if b = 92 then [92, 92]
  else if b = 8 then [92, 98]
  else if b = 9 then [92, 116]
  else if b = 10 then [92, 110]
  else if b = 12 then [92, 102]
  else if b = 13 then [92, 114]
  else if b < 32 then [92, 117, 48, 48, hexDigitByte (b / 16), hexDigitByte (b % 16)]
  else [b]

def quoteStr (s : ByteStr) : List Nat :=
  34 :: ((s.map escapeByte).flatten ++ [34])

def pairBytes (kv : ByteStr × ByteStr) : List Nat :=
  quoteStr kv.1 ++ 58 :: quoteStr kv.2

def joinComma : List (List Nat) → List Nat
  | [] => []
  | [x] => x
  | x :: y :: rest => x ++ 44 :: joinComma (y :: rest)

def stringifyMarker (m : Marker) : List Nat :=
  123 :: (joinComma (m.map pairBytes) ++ [125])

def parseHexByte (b : Nat) : Option Nat :=
  if 48 ≤ b ∧ b ≤ 57 then some (b - 48)
  else if 97 ≤ b ∧ b ≤ 102 then some (b - 87)
  else if 65 ≤ b ∧ b ≤ 70 then some (b - 55)
  else none

def escCharByte (e : Nat) : Option Nat :=
  if e = 34 then some 34
  else if e = 92 then some 92
  else if e = 47 then some 47
  else if e = 98 then some 8
  else if e = 116 then some 9
  else if e = 110 then some 10
  else if e = 102 then some 12
  else if e = 114 then some 13
  else none

def hex4 : List Nat → Option (Nat × List Nat)
  | e1 :: e2 :: e3 :: e4 :: rest =>
    match parseHexByte e1, parseHexByte e2, parseHexByte e3, parseHexByte e4 with
    | some x1, some x2, some x3, some x4 =>
        some (x1 * 4096 + x2 * 256 + x3 * 16 + x4, rest)
    | _, _, _, _ => none
  | _ => none

def parseStrBodyF : Nat → List Nat → Option (ByteStr × List Nat)
  | 0, _ => none
  | fuel+1, l =>
    match l with
    | [] => none
    | b :: rest =>
      if b = 34 then some ([], rest)
      else if b = 92 then
        match rest with
        | [] => none
        | e :: rest2 =>
          match escCharByte e with
          | some x => (parseStrBodyF fuel rest2).map (fun p => (x :: p.1, p.2))
          | none =>
            if e = 117 then
              match hex4 rest2 with
              | some (x, rest3) => (parseStrBodyF fuel rest3).map (fun p => (x :: p.1, p.2))
              | none => none
            else none
      else if b < 32 then none
      else (parseStrBodyF fuel rest).map (fun p => (b :: p.1, p.2))

/-- A parsed JSON document, at the granularity the codec observes.  Numbers
keep their source lexeme: the codec never inspects a numeric value, only
passes it through. -/
inductive JsonValue where
  | jnull
  | jbool (b : Bool)
  | jnum (lexeme : ByteStr)
  | jstr (s : ByteStr)
  | jarr (vs : List JsonValue)
  | jobj (fields : List (ByteStr × JsonValue))

/-- JSON insignificant whitespace: space, tab, line feed, carriage return. -/
def skipWs : List Nat → List Nat
  | [] => []
  | b :: rest =>
    if b = 32 ∨ b = 9 ∨ b = 10 ∨ b = 13 then skipWs rest else b :: rest

/-- Longest run of ASCII digits at the head of the input. -/
def takeDigits : List Nat → ByteStr × List Nat
  | [] => ([], [])
  | b :: rest =>
    if 48 ≤ b ∧ b ≤ 57 then
      let p := takeDigits rest
      (b :: p.1, p.2)
    else ([], b :: rest)

/-- JSON integer digits: `0`, or a nonzero digit followed by digits. -/
def parseIntDigits : List Nat → Option (ByteStr × List Nat)
  | [] => none
  | b :: rest =>
    if b = 48 then some ([48], rest)
    else if 49 ≤ b ∧ b ≤ 57 then
      let p := takeDigits rest
      some (b :: p.1, p.2)
    else none

/-- Optional JSON fraction: `.` followed by one or more digits. -/
def parseFrac : List Nat → Option (ByteStr × List Nat)
  | 46 :: rest =>
    (match takeDigits rest with
     | ([], _) => none
     | (ds, r) => some (46 :: ds, r))
  | l => some ([], l)

/-- Optional JSON exponent: `e`/`E`, an optional sign, one or more digits. -/
def parseExp : List Nat → Option (ByteStr × List Nat)
  | [] => some ([], [])
  | b :: rest =>
    if b = 101 ∨ b = 69 then
      match rest with
      | [] => none
      | c :: r =>
        if c = 43 ∨ c = 45 then
          match takeDigits r with
          | ([], _) => none
          | (ds, r2) => some (b :: c :: ds, r2)
        else
          match takeDigits (c :: r) with
          | ([], _) => none
          | (ds, r2) => some (b :: ds, r2)
    else some ([], b :: rest)

/-- A JSON number lexeme:
`-? (0 | [1-9][0-9]*) (. [0-9]+)? ([eE] [+-]? [0-9]+)?`. -/
def parseNumber (l : List Nat) : Option (ByteStr × List Nat) :=
  match l with
  | 45 :: r =>
    (match parseIntDigits r with
     | none => none
     | some (ip, l2) =>
       match parseFrac l2 with
       | none => none
       | some (fp, l3) =>
         match parseExp l3 with
         | none => none
         | some (ep, l4) => some (45 :: (ip ++ fp ++ ep), l4))
  | _ =>
    match parseIntDigits l with
    | none => none
    | some (ip, l2) =>
      match parseFrac l2 with
      | none => none
      | some (fp, l3) =>
        match parseExp l3 with
        | none => none
        | some (ep, l4) => some (ip ++ fp ++ ep, l4)

mutual

/-- One value of the full `JSON.parse` grammar: leading whitespace, then a
literal keyword, a number, a string, an array or an object. -/
def parseValueF : Nat → List Nat → Option (JsonValue × List Nat)
  | 0, _ => none
  | fuel+1, l =>
    match skipWs l with
    | [] => none
    | b :: rest =>
      if b = 110 then
        match rest with
        | 117 :: 108 :: 108 :: r => some (JsonValue.jnull, r)
        | _ => none
      else if b = 116 then
        match rest with
        | 114 :: 117 :: 101 :: r => some (JsonValue.jbool true, r)
        | _ => none
      else if b = 102 then
        match rest with
        | 97 :: 108 :: 115 :: 101 :: r => some (JsonValue.jbool false, r)
        | _ => none
      else if b = 34 then
        (parseStrBodyF (fuel+1) rest).map (fun p => (JsonValue.jstr p.1, p.2))
      else if b = 91 then
        match skipWs rest with
        | 93 :: r => some (JsonValue.jarr [], r)
        | l2 =>
          (match parseItemsF fuel l2 with
           | none => none
           | some (vs, r) => some (JsonValue.jarr vs, r))
      else if b = 123 then
        match skipWs rest with
        | 125 :: r => some (JsonValue.jobj [], r)
        | l2 =>
          (match parseFieldsF fuel l2 with
           | none => none
           | some (fs, r) => some (JsonValue.jobj fs, r))
      else
        (parseNumber (b :: rest)).map (fun p => (JsonValue.jnum p.1, p.2))

/-- Array elements after a non-empty `[`: `value (, value)* ]`. -/
def parseItemsF : Nat → List Nat → Option (List JsonValue × List Nat)
  | 0, _ => none
  | fuel+1, l =>
    match parseValueF fuel l with
    | none => none
    | some (v, r1) =>
      match skipWs r1 with
      | 44 :: r2 =>
        (match parseItemsF fuel r2 with
         | none => none
         | some (vs, r3) => some (v :: vs, r3))
      | 93 :: r2 => some ([v], r2)
      | _ => none

/-- Object members after a non-empty `{`:
`"key" : value (, "key" : value)* \x7d`. -/
def parseFieldsF : Nat → List Nat → Option (List (ByteStr × JsonValue) × List Nat)
  | 0, _ => none
  | fuel+1, l =>
    match skipWs l with
    | 34 :: r0 =>
      (match parseStrBodyF (fuel+1) r0 with
       | none => none
       | some (k, r1) =>
         match skipWs r1 with
         | 58 :: r2 =>
           (match parseValueF fuel r2 with
            | none => none
            | some (v, r3) =>
              match skipWs r3 with
              | 44 :: r4 =>
                (match parseFieldsF fuel r4 with
                 | none => none
                 | some (fs, r5) => some ((k, v) :: fs, r5))
              | 125 :: r4 => some ([(k, v)], r4)
              | _ => none)
         | _ => none)
    | _ => none

end

/-- `JSON.parse` on the decoded token bytes: parse one value, then require
that only whitespace remains.  The iteration bound `2·length + 2` is enough
for every valid document (at most every second step is byte-free), so the
function returns `none` exactly on inputs `JSON.parse` throws on. -/
def jsonParse (l : List Nat) : Option JsonValue :=
  match parseValueF (2 * l.length + 2) l with
  | none => none
  | some (v, r) => if skipWs r = [] then some v else none

/-- A marker's entries as JSON object fields (every value a string). -/
def markerFields (m : Marker) : List (ByteStr × JsonValue) :=
  m.map (fun kv => (kv.1, JsonValue.jstr kv.2))

/-- The JSON value `JSON.parse` recovers from a serialized marker. -/
def markerJson (m : Marker) : JsonValue :=
  JsonValue.jobj (markerFields m)

theorem parseHexByte_hexDigitByte : ∀ n < 16, parseHexByte (hexDigitByte n) = some n := by
  decide

theorem parseStrBodyF_escaped : ∀ (s : ByteStr) (r : List Nat) (fuel : Nat),
    (∀ b ∈ s, b < 256) → ((s.map escapeByte).flatten).length < fuel →
    parseStrBodyF fuel ((s.map escapeByte).flatten ++ 34 :: r) = some (s, r)
  | [], r, fuel, _, hf => by
    cases fuel with
    | zero => exact absurd hf (by simp)
    | succ f => simp [parseStrBodyF]
  | b :: s, r, fuel, h, hf => by
    cases fuel with
    | zero => exact absurd hf (by simp)
    | succ f =>
      have hb : b < 256 := h b (by simp)
      have hrest : ∀ x ∈ s, x < 256 := fun x hx => h x (by simp [hx])
      simp only [List.map_cons, List.flatten_cons, List.length_append,
        List.append_assoc] at hf ⊢
      by_cases h34 : b = 34
      · subst h34
        have hlen : ((s.map escapeByte).flatten).length < f := by
          have he : (escapeByte 34).length = 2 := by decide
          omega
        have hesc : escapeByte 34 = [92, 34] := by decide
        rw [hesc]
        simp [parseStrBodyF, escCharByte, parseStrBodyF_escaped s r f hrest hlen]
      · by_cases h92 : b = 92
        · subst h92
          have hlen : ((s.map escapeByte).flatten).length < f := by
            have he : (escapeByte 92).length = 2 := by decide
            omega
          have hesc : escapeByte 92 = [92, 92] := by decide
          rw [hesc]
          simp [parseStrBodyF, escCharByte, parseStrBodyF_escaped s r f hrest hlen]
        · by_cases h8 : b = 8
          · subst h8
            have hlen : ((s.map escapeByte).flatten).length < f := by
              have he : (escapeByte 8).length = 2 := by decide
              omega
            have hesc : escapeByte 8 = [92, 98] := by decide
            rw [hesc]
            simp [parseStrBodyF, escCharByte, parseStrBodyF_escaped s r f hrest hlen]
          · by_cases h9 : b = 9
            · subst h9
              have hlen : ((s.map escapeByte).flatten).length < f := by
                have he : (escapeByte 9).length = 2 := by decide
                omega
              have hesc : escapeByte 9 = [92, 116] := by decide
              rw [hesc]
              simp [parseStrBodyF, escCharByte, parseStrBodyF_escaped s r f hrest hlen]
            · by_cases h10 : b = 10
              · subst h10
                have hlen : ((s.map escapeByte).flatten).length < f := by
                  have he : (escapeByte 10).length = 2 := by decide
                  omega
                have hesc : escapeByte 10 = [92, 110] := by decide
                rw [hesc]
                simp [parseStrBodyF, escCharByte,
                  parseStrBodyF_escaped s r f hrest hlen]
              · by_cases h12 : b = 12
                · subst h12
                  have hlen : ((s.map escapeByte).flatten).length < f := by
                    have he : (escapeByte 12).length = 2 := by decide
                    omega
                  have hesc : escapeByte 12 = [92, 102] := by decide
                  rw [hesc]
                  simp [parseStrBodyF, escCharByte,
                    parseStrBodyF_escaped s r f hrest hlen]
                · by_cases h13 : b = 13
                  · subst h13
                    have hlen : ((s.map escapeByte).flatten).length < f := by
                      have he : (escapeByte 13).length = 2 := by decide
                      omega
                    have hesc : escapeByte 13 = [92, 114] := by decide
                    rw [hesc]
                    simp [parseStrBodyF, escCharByte,
                      parseStrBodyF_escaped s r f hrest hlen]
                  · by_cases hlt : b < 32
                    · have hd1 : b / 16 < 16 := by omega
                      have hd2 : b % 16 < 16 := by omega
                      have hlen : ((s.map escapeByte).flatten).length < f := by
                        have he : (escapeByte b).length = 6 := by
                          simp [escapeByte, h34, h92, h8, h9, h10, h12, h13, hlt]
                        omega
                      have hesc : escapeByte b
                          = [92, 117, 48, 48, hexDigitByte (b / 16),
                             hexDigitByte (b % 16)] := by
                        simp [escapeByte, h34, h92, h8, h9, h10, h12, h13, hlt]
                      rw [hesc]
                      have hpz : parseHexByte 48 = some 0 := by decide
                      simp [parseStrBodyF, escCharByte, hex4, hpz,
                        parseHexByte_hexDigitByte _ hd1,
                        parseHexByte_hexDigitByte _ hd2,
                        parseStrBodyF_escaped s r f hrest hlen]
                      omega
                    · have hlen : ((s.map escapeByte).flatten).length < f := by
                        have he : (escapeByte b).length = 1 := by
                          simp [escapeByte, h34, h92, h8, h9, h10, h12, h13, hlt]
                        omega
                      have hesc : escapeByte b = [b] := by
                        simp [escapeByte, h34, h92, h8, h9, h10, h12, h13, hlt]
                      rw [hesc]
                      simp [parseStrBodyF, h34, h92, hlt,
                        parseStrBodyF_escaped s r f hrest hlen]

theorem pairBytes_length (kv : ByteStr × ByteStr) :
    (pairBytes kv).length
      = ((kv.1.map escapeByte).flatten).length
        + ((kv.2.map escapeByte).flatten).length + 5 := by
  simp [pairBytes, quoteStr]
  omega

theorem skipWs_34 (r : List Nat) : skipWs (34 :: r) = 34 :: r := by simp [skipWs]

theorem skipWs_58 (r : List Nat) : skipWs (58 :: r) = 58 :: r := by simp [skipWs]

theorem skipWs_44 (r : List Nat) : skipWs (44 :: r) = 44 :: r := by simp [skipWs]

theorem skipWs_123 (r : List Nat) : skipWs (123 :: r) = 123 :: r := by simp [skipWs]

theorem skipWs_125 (r : List Nat) : skipWs (125 :: r) = 125 :: r := by simp [skipWs]

theorem parseValueF_str (fuel : Nat) (s : ByteStr) (r : List Nat)
    (hs : ∀ b ∈ s, b < 256)
    (hf : ((s.map escapeByte).flatten).length < fuel) :
    parseValueF fuel (34 :: ((s.map escapeByte).flatten ++ 34 :: r))
      = some (JsonValue.jstr s, r) := by
  cases fuel with
  | zero => exact absurd hf (by omega)
  | succ f =>
    simp only [parseValueF, skipWs_34]
    simp [parseStrBodyF_escaped s r (f+1) hs hf]

theorem parseFieldsF_joinComma : ∀ (m : Marker) (fuel : Nat) (tail : List Nat),
    m ≠ [] →
    (∀ kv ∈ m, (∀ b ∈ kv.1, b < 256) ∧ (∀ b ∈ kv.2, b < 256)) →
    (joinComma (m.map pairBytes)).length < fuel →
    parseFieldsF fuel (joinComma (m.map pairBytes) ++ 125 :: tail)
      = some (markerFields m, tail)
  | [], _, _, hm, _, _ => absurd rfl hm
  | [kv], fuel, tail, _, hb, hf => by
    cases fuel with
    | zero => exact absurd hf (by omega)
    | succ f =>
      obtain ⟨hk, hv⟩ := hb kv (by simp)
      have hpb := pairBytes_length kv
      have hjc : joinComma [pairBytes kv] = pairBytes kv := rfl
      rw [List.map_singleton, hjc] at hf ⊢
      have hfk : ((kv.1.map escapeByte).flatten).length < f + 1 := by omega
      have hfv : ((kv.2.map escapeByte).flatten).length < f := by omega
      have hshape : pairBytes kv ++ 125 :: tail
          = 34 :: ((kv.1.map escapeByte).flatten
              ++ 34 :: (58 :: (34 :: ((kv.2.map escapeByte).flatten
                ++ 34 :: (125 :: tail))))) := by
        simp [pairBytes, quoteStr]
      rw [hshape]
      simp [parseFieldsF, skipWs_34, skipWs_58, skipWs_125,
        parseStrBodyF_escaped kv.1
          (58 :: (34 :: ((kv.2.map escapeByte).flatten ++ 34 :: (125 :: tail))))
          (f+1) hk hfk,
        parseValueF_str f kv.2 (125 :: tail) hv hfv, markerFields]
  | kv :: kv2 :: rest, fuel, tail, _, hb, hf => by
    cases fuel with
    | zero => exact absurd hf (by omega)
    | succ f =>
      obtain ⟨hk, hv⟩ := hb kv (by simp)
      have hpb := pairBytes_length kv
      have hjc : joinComma ((kv :: kv2 :: rest).map pairBytes)
          = pairBytes kv ++ 44 :: joinComma ((kv2 :: rest).map pairBytes) := rfl
      rw [hjc] at hf ⊢
      simp only [List.length_append, List.length_cons] at hf
      have hfk : ((kv.1.map escapeByte).flatten).length < f + 1 := by omega
      have hfv : ((kv.2.map escapeByte).flatten).length < f := by omega
      have hrec : (joinComma ((kv2 :: rest).map pairBytes)).length < f := by omega
      have ih := parseFieldsF_joinComma (kv2 :: rest) f tail (by simp)
        (fun p hp => hb p (by simp [hp])) hrec
      have hshape : (pairBytes kv ++ 44 :: joinComma ((kv2 :: rest).map pairBytes))
            ++ 125 :: tail
          = 34 :: ((kv.1.map escapeByte).flatten
              ++ 34 :: (58 :: (34 :: ((kv.2.map escapeByte).flatten
                ++ 34 :: (44 :: (joinComma ((kv2 :: rest).map pairBytes)
                  ++ 125 :: tail)))))) := by
        simp [pairBytes, quoteStr]
      rw [hshape]
      simp only [List.map_cons] at ih
      simp [parseFieldsF, skipWs_34, skipWs_58, skipWs_44,
        parseStrBodyF_escaped kv.1
          (58 :: (34 :: ((kv.2.map escapeByte).flatten
            ++ 34 :: (44 :: (joinComma (pairBytes kv2 :: rest.map pairBytes)
              ++ 125 :: tail)))))
          (f+1) hk hfk,
        parseValueF_str f kv.2
          (44 :: (joinComma (pairBytes kv2 :: rest.map pairBytes) ++ 125 :: tail))
          hv hfv,
        ih, markerFields]

theorem joinComma_head_quote (kv : ByteStr × ByteStr)
    (rest : List (ByteStr × ByteStr)) :
    ∃ t, joinComma ((kv :: rest).map pairBytes) = 34 :: t := by
  cases rest with
  | nil =>
    refine ⟨(kv.1.map escapeByte).flatten ++ 34 :: (58 :: quoteStr kv.2), ?_⟩
    show pairBytes kv = _
    simp [pairBytes, quoteStr]
  | cons kv2 r2 =>
    refine ⟨(kv.1.map escapeByte).flatten
        ++ 34 :: (58 :: (quoteStr kv.2
          ++ 44 :: joinComma ((kv2 :: r2).map pairBytes))), ?_⟩
    show pairBytes kv ++ 44 :: joinComma ((kv2 :: r2).map pairBytes) = _
    simp [pairBytes, quoteStr]

theorem parseValueF_stringify (m : Marker) (fuel : Nat)
    (hb : ∀ kv ∈ m, (∀ b ∈ kv.1, b < 256) ∧ (∀ b ∈ kv.2, b < 256))
    (hf : (stringifyMarker m).length < fuel) :
    parseValueF fuel (stringifyMarker m) = some (markerJson m, []) := by
  cases fuel with
  | zero => exact absurd hf (by omega)
  | succ f =>
    cases m with
    | nil =>
      have hs : stringifyMarker [] = [123, 125] := rfl
      rw [hs]
      simp [parseValueF, skipWs, markerJson, markerFields]
    | cons kv rest =>
      obtain ⟨t, ht⟩ := joinComma_head_quote kv rest
      have hlen : (joinComma ((kv :: rest).map pairBytes)).length < f := by
        have hsl : (stringifyMarker (kv :: rest)).length
            = (joinComma ((kv :: rest).map pairBytes)).length + 2 := by
          simp [stringifyMarker]
        omega
      have key := parseFieldsF_joinComma (kv :: rest) f [] (by simp) hb hlen
      show parseValueF (f+1)
          (123 :: (joinComma ((kv :: rest).map pairBytes) ++ 125 :: [])) = _
      rw [ht] at key ⊢
      simp only [List.cons_append] at key ⊢
      simp [parseValueF, skipWs_123, skipWs_34, key, markerJson]

theorem jsonParse_stringify (m : Marker)
    (hb : ∀ kv ∈ m, (∀ b ∈ kv.1, b < 256) ∧ (∀ b ∈ kv.2, b < 256)) :
    jsonParse (stringifyMarker m) = some (markerJson m) := by
  have h := parseValueF_stringify m (2 * (stringifyMarker m).length + 2) hb
    (by omega)
  unfold jsonParse
  rw [h]
  rfl

theorem hexDigitByte_lt (n : Nat) (h : n < 16) : hexDigitByte n < 256 := by
  simp only [hexDigitByte]
  split <;> omega

theorem escapeByte_bytes_lt (b : Nat) (hb : b < 256) : ∀ x ∈ escapeByte b, x < 256 := by
  intro x hx
  simp only [escapeByte] at hx
  split_ifs at hx with h1 h2 h3 h4 h5 h6 h7 h8
  · simp at hx
    omega
  · simp at hx
    omega
  · simp at hx
    omega
  · simp at hx
    omega
  · simp at hx
    omega
  · simp at hx
    omega
  · simp at hx
    omega
  · have hd1 := hexDigitByte_lt (b / 16) (by omega)
    have hd2 := hexDigitByte_lt (b % 16) (by omega)
    simp at hx
    rcases hx with h | h | h | h | h | h <;> omega
  · simp at hx
    omega

theorem quoteStr_bytes_lt (s : ByteStr) (hs : ∀ b ∈ s, b < 256) :
    ∀ x ∈ quoteStr s, x < 256 := by
  intro x hx
  simp only [quoteStr, List.mem_cons, List.mem_append, List.mem_flatten,
    List.mem_map] at hx
  rcases hx with h | ⟨⟨l, ⟨b, hb, rfl⟩, hxl⟩ | h⟩
  · omega
  · exact escapeByte_bytes_lt b (hs b hb) x hxl
  · simp at h
    omega

theorem pairBytes_bytes_lt (kv : ByteStr × ByteStr)
    (hk : ∀ b ∈ kv.1, b < 256) (hv : ∀ b ∈ kv.2, b < 256) :
    ∀ x ∈ pairBytes kv, x < 256 := by
  intro x hx
  simp only [pairBytes, List.mem_append, List.mem_cons] at hx
  rcases hx with h | h | h
  · exact quoteStr_bytes_lt kv.1 hk x h
  · omega
  · exact quoteStr_bytes_lt kv.2 hv x h

theorem joinComma_bytes_lt : ∀ (ls : List (List Nat)),
    (∀ l ∈ ls, ∀ x ∈ l, x < 256) → ∀ x ∈ joinComma ls, x < 256
  | [], _, x, hx => by simp [joinComma] at hx
  | [l], h, x, hx => by
    have : joinComma [l] = l := rfl
    rw [this] at hx
    exact h l (by simp) x hx
  | l :: l2 :: rest, h, x, hx => by
    have hjc : joinComma (l :: l2 :: rest) = l ++ 44 :: joinComma (l2 :: rest) := rfl
    rw [hjc] at hx
    simp only [List.mem_append, List.mem_cons] at hx
    rcases hx with h1 | h1 | h1
    · exact h l (by simp) x h1
    · omega
    · exact joinComma_bytes_lt (l2 :: rest) (fun l hl => h l (by simp at hl ⊢; tauto)) x h1

theorem stringifyMarker_bytes_lt (m : Marker)
    (hb : ∀ kv ∈ m, (∀ b ∈ kv.1, b < 256) ∧ (∀ b ∈ kv.2, b < 256)) :
    ∀ x ∈ stringifyMarker m, x < 256 := by
  intro x hx
  simp only [stringifyMarker, List.mem_cons, List.mem_append] at hx
  rcases hx with h | h | h
  · omega
  · refine joinComma_bytes_lt (m.map pairBytes) ?_ x h
    intro l hl
    simp only [List.mem_map] at hl
    obtain ⟨kv, hkv, rfl⟩ := hl
    exact pairBytes_bytes_lt kv (hb kv hkv).1 (hb kv hkv).2
  · simp at h
    omega

theorem base64Encode_ne_nil : ∀ (bs : List Nat), bs ≠ [] → base64Encode bs ≠ []
  | [], h => absurd rfl h
  | [a], _ => by simp [base64Encode]
  | [a, b], _ => by simp [base64Encode]
  | a :: b :: c :: rest, _ => by simp [base64Encode]

/-! ## The pagination codec (`common` layer, lines 124-142) -/

structure PaginationParams where
  limit : Option Nat
  nextToken : Option (List Char)

structure ParsedPagination where
  Limit : Nat
  ExclusiveStartKey : Option JsonValue

inductive JsError where
  | jsonParseFailure
deriving DecidableEq, Repr

def createNextToken : Option Marker → Option (List Char)
  | none => none
  | some m => some (base64Encode (stringifyMarker m))

def jsLimit : Option Nat → Nat
  | none => 20
  | some n => if n = 0 then 20 else n

def parsePaginationParams (p : PaginationParams) : Except JsError ParsedPagination :=
  match p.nextToken with
  | none => Except.ok { Limit := jsLimit p.limit, ExclusiveStartKey := none }
  | some tok =>
    if tok = [] then Except.ok { Limit := jsLimit p.limit, ExclusiveStartKey := none }
    else
      match jsonParse (base64Decode tok) with
      | some v => Except.ok { Limit := jsLimit p.limit, ExclusiveStartKey := some v }
      | none => Except.error JsError.jsonParseFailure

/-- C7: the codec maps an absent marker to an absent token (never a non-null
sentinel), and `parsePaginationParams` exactly inverts `createNextToken`: for
every marker, decoding the token produced from it yields exactly that marker
— the JSON object whose fields are the marker's string entries — with the
default/requested page limit. -/
theorem pagination_token_roundtrip (m : Marker) (lim : Option Nat)
    (hb : ∀ kv ∈ m, (∀ b ∈ kv.1, b < 256) ∧ (∀ b ∈ kv.2, b < 256)) :
    createNextToken none = none ∧
    parsePaginationParams { limit := lim, nextToken := createNextToken (some m) }
      = Except.ok { Limit := jsLimit lim, ExclusiveStartKey := some (markerJson m) } := by
  refine ⟨rfl, ?_⟩
  have hlt := stringifyMarker_bytes_lt m hb
  have hne : ¬ base64Encode (stringifyMarker m) = [] :=
    base64Encode_ne_nil _ (by simp [stringifyMarker])
  simp only [createNextToken, parsePaginationParams, if_neg hne]
  rw [base64_roundtrip _ hlt, jsonParse_stringify m hb]

/-- C6, counterexample: `parsePaginationParams` wraps
`JSON.parse(Buffer.from(token, 'base64').toString())` in no try/catch and the
codec defines no token-decode error of its own, so decoding the garbage token
`"!!!"` surfaces the raw, uncontrolled `JSON.parse` failure (the JavaScript
`SyntaxError`), not a distinct TokenDecodeError-kind error. -/
theorem garbage_token_uncaught :
    parsePaginationParams { limit := none, nextToken := some ['!', '!', '!'] }
      = Except.error JsError.jsonParseFailure := rfl

/-- The token `"bnVsbA=="`: base64 of the valid JSON document `null`. -/
def tokenNullB64 : List Char := ['b', 'n', 'V', 's', 'b', 'A', '=', '=']

/-- The token `"NDI="`: base64 of the valid JSON document `42`. -/
def token42B64 : List Char := ['N', 'D', 'I', '=']

/-- C6 (amended): the codec never distinguishes a bad token.  A non-empty
token whose base64-decoded bytes are not a valid JSON document propagates
the underlying generic `JSON.parse` failure uncaught — no distinct
token-decode error exists anywhere in the codec, and an empty-string token,
being falsy in JS, is silently treated as no token at all.  But a foreign
token that decodes to ANY valid JSON document is silently accepted as a
resume position: base64 of `"null"` (the token `"bnVsbA=="`) yields a null
`ExclusiveStartKey`, silently restarting pagination from the first page,
and base64 of `"42"` (the token `"NDI="`) yields the number 42. -/
theorem invalid_token_not_distinguished (tok : List Char) (lim : Option Nat)
    (hne : ¬ tok = []) (hbad : jsonParse (base64Decode tok) = none) :
    parsePaginationParams { limit := lim, nextToken := some tok }
      = Except.error JsError.jsonParseFailure ∧
    parsePaginationParams { limit := none, nextToken := some tokenNullB64 }
      = Except.ok { Limit := 20, ExclusiveStartKey := some JsonValue.jnull } ∧
    parsePaginationParams { limit := none, nextToken := some token42B64 }
      = Except.ok { Limit := 20, ExclusiveStartKey := some (JsonValue.jnum [52, 50]) } := by
  refine ⟨?_, rfl, rfl⟩
  simp only [parsePaginationParams, if_neg hne, hbad]

/-- A concrete engine marker: `{"PK":"USER#u1","SK":"USER#u1"}` as UTF-8
bytes. -/
def markerC7 : Marker :=
  [([80, 75], [85, 83, 69, 82, 35, 117, 49]),
   ([83, 75], [85, 83, 69, 82, 35, 117, 49])]

/-- Witness for C7 at the concrete marker. -/
theorem pagination_token_roundtrip_witness :
    (∀ kv ∈ markerC7, (∀ b ∈ kv.1, b < 256) ∧ (∀ b ∈ kv.2, b < 256)) ∧
    (createNextToken none = none ∧
     parsePaginationParams
         { limit := some 5, nextToken := createNextToken (some markerC7) }
       = Except.ok { Limit := jsLimit (some 5), ExclusiveStartKey := some (markerJson markerC7) }) :=
  ⟨by decide, pagination_token_roundtrip markerC7 (some 5) (by decide)⟩

/-- Witness for the amended C6 at the garbage token `"$$"` (whose decode is
empty, hence not a JSON document). -/
theorem invalid_token_not_distinguished_witness :
    ((¬ (['$', '$'] : List Char) = []) ∧
      jsonParse (base64Decode ['$', '$']) = none) ∧
    (parsePaginationParams { limit := some 7, nextToken := some ['$', '$'] }
        = Except.error JsError.jsonParseFailure ∧
     parsePaginationParams { limit := none, nextToken := some tokenNullB64 }
       = Except.ok { Limit := 20, ExclusiveStartKey := some JsonValue.jnull } ∧
     parsePaginationParams { limit := none, nextToken := some token42B64 }
       = Except.ok { Limit := 20, ExclusiveStartKey := some (JsonValue.jnum [52, 50]) }) :=
  ⟨⟨by decide, rfl⟩,
    invalid_token_not_distinguished ['$', '$'] (some 7) (by decide) rfl⟩

/-! ## Email / tag canonicalization: write paths and repository lookups

Two `User` classes exist in the entities layer.  The class above
(`user.entity.ts`, used by `BaseEntity.create`/`save` and by
`UserRepository`) projects its GSI keys through `KEY_BUILDERS`, which
lower-case email and tag and attach the `EMAIL#`/`TAG#` category tags.  The
second, legacy class (`user.ts`, exported as `UserEntity`) has its own
`toDynamoDBItem`, which writes `EmailKey` as the raw email and `ClkkTagKey`
as the raw tag — no prefix, no lower-casing. -/

/-- The legacy `User` class of `user.ts` (exported as `UserEntity`). -/
structure LegacyUser where
  userId : String
  email : String
  firstName : Option String
  lastName : Option String
  phoneNumber : Option String
  clerkId : Option String
  cybridGuid : Option String
  clkkTag : Option String
  kycStatus : Option String
  onboardingStatus : Option String
  createdAt : String
  updatedAt : String
deriving DecidableEq, Repr

/-- `LegacyUser.toDynamoDBItem` (`user.ts`): keys plus entity type, required
attributes, then each optional attribute if truthy.  `ExternalIdKey` uses a
`KEY_BUILDERS.externalId('CLERK', ...)` from a constants module that is not
under src; modelled from the spec: external-identity keys are the
type+value pair, category-tagged (`CLERK#value`), matching the present
constants layer's `userByClerkId`.  `ClkkTagKey` and `EmailKey` are written
as the RAW attribute values. -/
def LegacyUser.toDynamoDBItem (u : LegacyUser) : Item :=
  [(ATTRIBUTES.PARTITION_KEY, AttrVal.str ("USER#" ++ u.userId)),
   (ATTRIBUTES.SORT_KEY, AttrVal.str ("USER#" ++ u.userId)),
   ("entityType", AttrVal.str "USER"),
   ("userId", AttrVal.str u.userId),
   (ATTRIBUTES.EMAIL, AttrVal.str u.email),
   (ATTRIBUTES.CREATED_AT, AttrVal.str u.createdAt),
   (ATTRIBUTES.UPDATED_AT, AttrVal.str u.updatedAt)]
  ++ optStrEntry ATTRIBUTES.FIRST_NAME u.firstName
  ++ optStrEntry ATTRIBUTES.LAST_NAME u.lastName
  ++ optStrEntry ATTRIBUTES.PHONE_NUMBER u.phoneNumber
  ++ (match u.clerkId with
      | none => []
      | some c => if c == "" then []
          else [(ATTRIBUTES.CLERK_ID, AttrVal.str c),
                (ATTRIBUTES.EXTERNAL_ID_KEY, AttrVal.str ("CLERK#" ++ c))])
  ++ optStrEntry "cybridGuid" u.cybridGuid
  ++ (match u.clkkTag with
      | none => []
      | some t => if t == "" then []
          else [(ATTRIBUTES.CLKK_TAG, AttrVal.str t),
                (ATTRIBUTES.CLKK_TAG_KEY, AttrVal.str t)])
  ++ optStrEntry ATTRIBUTES.KYC_STATUS u.kycStatus
  ++ optStrEntry "onboardingStatus" u.onboardingStatus
  ++ (if u.email == "" then [] else [(ATTRIBUTES.EMAIL_KEY, AttrVal.str u.email)])

/-- One `queryByIndex` GSI equality lookup with page size 1: the first
stored item whose GSI key attribute holds exactly the requested value. -/
def queryIndexFirst (st : Store) (attr : String) (v : String) : Option Item :=
  (st.map Prod.snd).find? (fun it => lookupAttr it attr == some (AttrVal.str v))

/-- `UserRepository.getByEmail`: a single `queryByIndex` against the Email
GSI, keyed by `KEY_BUILDERS.userByEmail(email)` (lower-cased, `EMAIL#`
prefix), limit 1. -/
def UserRepository.getByEmail (st : Store) (email : String) : Option UserFields :=
  (queryIndexFirst st ATTRIBUTES.EMAIL_KEY (KEY_BUILDERS.userByEmail email)).map
    User.fromItem

/-- `UserRepository.getByClkkTag`: the same against the ClkkTag GSI, keyed
by `KEY_BUILDERS.userByClkkTag(tag)`. -/
def UserRepository.getByClkkTag (st : Store) (tag : String) : Option UserFields :=
  (queryIndexFirst st ATTRIBUTES.CLKK_TAG_KEY (KEY_BUILDERS.userByClkkTag tag)).map
    User.fromItem

/-- The EmailKey the entity layer's `toItem` writes is the canonicalized
`KEY_BUILDERS.userByEmail` value. -/
theorem createItem_emailKey (u : User) (now : String) :
    lookupAttr (u.createItem now) ATTRIBUTES.EMAIL_KEY
      = some (AttrVal.str ("EMAIL#" ++ jsToLowerCase u.email)) := by
  simp [User.createItem, User.toItem, KEY_BUILDERS.userByEmail]

/-- The ClkkTagKey the entity layer's `toItem` writes (for a truthy tag) is
the canonicalized `KEY_BUILDERS.userByClkkTag` value. -/
theorem createItem_clkkTagKey (u : User) (now t : String) (ht : u.clkkTag = some t)
    (hne : ¬ t = "") :
    lookupAttr (u.createItem now) ATTRIBUTES.CLKK_TAG_KEY
      = some (AttrVal.str ("TAG#" ++ jsToLowerCase t)) := by
  simp [User.createItem, User.toItem, KEY_BUILDERS.userByClkkTag, ht, strTruthy, hne]

/-! ### Claim C5 -/

/-- The legacy user of the claim's scenario. -/
def legacyUserC5 : LegacyUser :=
  { userId := "u1", email := "Test@Example.com", firstName := none,
    lastName := none, phoneNumber := none, clerkId := none, cybridGuid := none,
    clkkTag := some "AliceTag", kycStatus := none, onboardingStatus := none,
    createdAt := "t0", updatedAt := "t0" }

/-- C5, counterexample: the cited item projection `User.toDynamoDBItem`
(`user.ts`) does NOT canonicalize — it stores `EmailKey = "Test@Example.com"`
and `ClkkTagKey = "AliceTag"` raw, without the `EMAIL#`/`TAG#` category tags
or lower-casing, so the repository's canonical by-email lookup misses an
item written through it (for the lower-cased input and even for the original
casing). -/
theorem toDynamoDBItem_not_canonical :
    lookupAttr legacyUserC5.toDynamoDBItem ATTRIBUTES.EMAIL_KEY
      = some (AttrVal.str "Test@Example.com") ∧
    lookupAttr legacyUserC5.toDynamoDBItem ATTRIBUTES.CLKK_TAG_KEY
      = some (AttrVal.str "AliceTag") ∧
    KEY_BUILDERS.userByEmail "test@example.com" = "EMAIL#test@example.com" ∧
    UserRepository.getByEmail
        [(("USER#u1", "USER#u1"), legacyUserC5.toDynamoDBItem)] "test@example.com"
      = none ∧
    UserRepository.getByEmail
        [(("USER#u1", "USER#u1"), legacyUserC5.toDynamoDBItem)] "Test@Example.com"
      = none ∧
    UserRepository.getByClkkTag
        [(("USER#u1", "USER#u1"), legacyUserC5.toDynamoDBItem)] "AliceTag"
      = none := by
  refine ⟨by decide, by decide, by decide, by decide, by decide, by decide⟩

/-- C5 (amended): on the paths actually used to create users — the entity
class's `toItem` projection (via `create`) for the write and the
repository's `KEY_BUILDERS`-keyed lookups for the read — email and tag are
canonicalized to lower-case with their category tags on both sides, so after
creating a user any casing of the email (and of a truthy tag) finds it; the
legacy `toDynamoDBItem` projection writes both keys raw and is not found by
these lookups. -/
theorem email_tag_lookup_canonical (u : User) (now q qt t : String)
    (hv : u.validateOk = true)
    (hq : jsToLowerCase q = jsToLowerCase u.email)
    (ht : u.clkkTag = some t) (htne : ¬ t = "")
    (hqt : jsToLowerCase qt = jsToLowerCase t) :
    ∃ st1, User.create u now [] = Except.ok (st1, u.stamp now) ∧
      UserRepository.getByEmail st1 q = some (User.fromItem (u.createItem now)) ∧
      UserRepository.getByClkkTag st1 qt = some (User.fromItem (u.createItem now)) := by
  refine ⟨[(KEY_BUILDERS.user u.id, u.createItem now)], ?_, ?_, ?_⟩
  · simp [User.create, hv, Store.conditionalPutNotExists, Store.getItem,
      Store.putItem, User.getPrimaryKey]
  · have hkey := createItem_emailKey u now
    simp [UserRepository.getByEmail, queryIndexFirst, KEY_BUILDERS.userByEmail,
      hkey, hq]
  · have hkey := createItem_clkkTagKey u now t ht htne
    simp [UserRepository.getByClkkTag, queryIndexFirst, KEY_BUILDERS.userByClkkTag,
      hkey, hqt]

/-- Witness for the amended C5: email `Test@Example.com` looked up as
`test@example.com`, tag `AliceTag` looked up as `alicetag`. -/
theorem email_tag_lookup_canonical_witness :
    (({ mkPlainUser "u1" "c1" "Test@Example.com" with
          clkkTag := some "AliceTag" : User}).validateOk = true ∧
      jsToLowerCase "test@example.com"
        = jsToLowerCase ({ mkPlainUser "u1" "c1" "Test@Example.com" with
              clkkTag := some "AliceTag" : User}).email ∧
      ({ mkPlainUser "u1" "c1" "Test@Example.com" with
          clkkTag := some "AliceTag" : User}).clkkTag = some "AliceTag" ∧
      jsToLowerCase "alicetag" = jsToLowerCase "AliceTag") ∧
    (∃ st1,
      User.create
          { mkPlainUser "u1" "c1" "Test@Example.com" with
            clkkTag := some "AliceTag" : User} "t1" []
        = Except.ok (st1,
            ({ mkPlainUser "u1" "c1" "Test@Example.com" with
                clkkTag := some "AliceTag" : User}).stamp "t1") ∧
      UserRepository.getByEmail st1 "test@example.com"
        = some (User.fromItem
            (({ mkPlainUser "u1" "c1" "Test@Example.com" with
                clkkTag := some "AliceTag" : User}).createItem "t1")) ∧
      UserRepository.getByClkkTag st1 "alicetag"
        = some (User.fromItem
            (({ mkPlainUser "u1" "c1" "Test@Example.com" with
                clkkTag := some "AliceTag" : User}).createItem "t1"))) :=
  ⟨⟨by decide, by decide, by decide, by decide⟩,
    email_tag_lookup_canonical _ "t1" "test@example.com" "alicetag" "AliceTag"
      (by decide) (by decide) (by decide) (by decide) (by decide)⟩

end Clkk
